import Mathlib

/-! Proxy rotation and protocol selection of the load generator (`main.go`).

A shallow embedding of the functions of `main.go`:

* `getNextProxy` over the four package-level proxy slices and their four
  package-level cursors (explicit state passing, run-time panics explicit);
* the protocol probes `canUseHTTP1`, `canUseHTTP2`, `canUseHTTP3`;
* the part of `main` from the capability report to the worker loop;
* `createTransportWithProxy`, `createRandomRequest`, `loadProxyListFromFile`.

Calls into the Go standard library whose outcome depends on the world
(`http.NewRequest`, `client.Do`, `url.Parse`, `strings.TrimSpace`, the random
generator behind `rand.Intn`, `os.Open`, `bufio.Scanner`) are not part of the
repository; their outcomes are parameters of the definitions below.  Lines
written to standard output (`fmt.Println`, `fmt.Printf`) are left out: no
function reads them back.
-/

namespace ProxyLoad

/-! ## Go run-time outcomes -/

/-- Outcome of a Go function call: either a run-time panic, or a normal
return with a value. -/
inductive Go (β : Type) where
  | panic (msg : String) : Go β
  | ret (v : β) : Go β
  deriving DecidableEq, Repr

/-- Go slice indexing `xs[i]` with an `int` index: the element when
`0 ≤ i < len(xs)`, otherwise the run-time error "index out of range". -/
def sliceAt {α : Type} (xs : List α) (i : Int) : Option α :=
  if 0 ≤ i then xs[i.toNat]? else none

/-! ## The proxy registry (package-level variables of `main.go`) -/

/-- The eight package-level variables read and written by `getNextProxy`:
four slices of proxy endpoints and four `int` cursors.  An endpoint is a
non-nil `*url.URL`; the slices only ever hold pointers that `url.Parse`
returned without error. -/
structure Registry (α : Type) where
  httpProxies : List α
  httpsProxies : List α
  socks4Proxies : List α
  socks5Proxies : List α
  httpIndex : Int
  httpsIndex : Int
  socks4Index : Int
  socks5Index : Int
  deriving DecidableEq, Repr

/-- The registry as the worker loop first sees it: the cursors hold Go's zero
value (they are declared without initialiser and written nowhere but in
`getNextProxy`), the slices hold what `main` loaded. -/
def initRegistry {α : Type} (http https socks4 socks5 : List α) : Registry α :=
  { httpProxies := http, httpsProxies := https,
    socks4Proxies := socks4, socks5Proxies := socks5,
    httpIndex := 0, httpsIndex := 0, socks4Index := 0, socks5Index := 0 }

/-- Embedding of `getNextProxy`.  The result is the returned pointer (`none`
is Go's `nil`) together with the registry after the call.  Go's `%` on `int`
truncates toward zero (`Int.tmod`).  The sum `index + 1` is only formed after
the bounds check of the slice access, so it is at most `len` and cannot
overflow the machine `int`. -/
def getNextProxy {α : Type} (r : Registry α) : Go (Option α × Registry α) :=
  if r.httpProxies.length > 0 then
    match sliceAt r.httpProxies r.httpIndex with
    | none => .panic "index out of range"
    | some proxy =>
      .ret (some proxy,
        { r with httpIndex := Int.tmod (r.httpIndex + 1) r.httpProxies.length })
  else if r.httpsProxies.length > 0 then
    match sliceAt r.httpsProxies r.httpsIndex with
    | none => .panic "index out of range"
    | some proxy =>
      .ret (some proxy,
        { r with httpsIndex := Int.tmod (r.httpsIndex + 1) r.httpsProxies.length })
  else if r.socks4Proxies.length > 0 then
    match sliceAt r.socks4Proxies r.socks4Index with
    | none => .panic "index out of range"
    | some proxy =>
      .ret (some proxy,
        { r with socks4Index := Int.tmod (r.socks4Index + 1) r.socks4Proxies.length })
  else if r.socks5Proxies.length > 0 then
    match sliceAt r.socks5Proxies r.socks5Index with
    | none => .panic "index out of range"
    | some proxy =>
      .ret (some proxy,
        { r with socks5Index := Int.tmod (r.socks5Index + 1) r.socks5Proxies.length })
  else
    .ret (none, r)

/-- Registry after `n` successive sequential calls of `getNextProxy`
(a panic of any call ends the sequence). -/
def runCalls {α : Type} : Nat → Registry α → Go (Registry α)
  | 0, r => .ret r
  | n + 1, r =>
    match getNextProxy r with
    | .panic msg => .panic msg
    | .ret (_, s) => runCalls n s

/-- Value returned by call number `n` (counted from 0) of a sequence of
successive sequential calls of `getNextProxy` started in `r`. -/
def nthCall {α : Type} (r : Registry α) (n : Nat) : Go (Option α) :=
  match runCalls n r with
  | .panic msg => .panic msg
  | .ret s =>
    match getNextProxy s with
    | .panic msg => .panic msg
    | .ret (proxy, _) => .ret proxy

/-- The four pools in the order in which `getNextProxy` inspects them. -/
def pools {α : Type} (r : Registry α) : List (List α) :=
  [r.httpProxies, r.httpsProxies, r.socks4Proxies, r.socks5Proxies]

/-- The four pools, each with its cursor, in inspection order. -/
def poolsWithCursor {α : Type} (r : Registry α) : List (List α × Int) :=
  [(r.httpProxies, r.httpIndex), (r.httpsProxies, r.httpsIndex),
   (r.socks4Proxies, r.socks4Index), (r.socks5Proxies, r.socks5Index)]

/-- Every non-empty pool has its cursor in `[0, len)`. -/
def CursorsInRange {α : Type} (r : Registry α) : Prop :=
  ∀ pc ∈ poolsWithCursor r, pc.1 ≠ [] → 0 ≤ pc.2 ∧ pc.2 < pc.1.length

/-- All four cursors are zero. -/
def CursorsZero {α : Type} (r : Registry α) : Prop :=
  r.httpIndex = 0 ∧ r.httpsIndex = 0 ∧ r.socks4Index = 0 ∧ r.socks5Index = 0

/-- The pool `getNextProxy` serves from: the first non-empty one in inspection
order (the last pool when none is non-empty). -/
def activePool {α : Type} (r : Registry α) : List α :=
  if r.httpProxies.length > 0 then r.httpProxies
  else if r.httpsProxies.length > 0 then r.httpsProxies
  else if r.socks4Proxies.length > 0 then r.socks4Proxies
  else r.socks5Proxies

/-- The cursor belonging to `activePool`. -/
def activeCursor {α : Type} (r : Registry α) : Int :=
  if r.httpProxies.length > 0 then r.httpIndex
  else if r.httpsProxies.length > 0 then r.httpsIndex
  else if r.socks4Proxies.length > 0 then r.socks4Index
  else r.socks5Index

/-! ## Values of the Go standard library that the program handles -/

/-- Go's `(value, error)` result pair: `.error e` when `err != nil`. -/
abbrev Result (β : Type) := Except String β

/-- A Go function value, known only by its identity. -/
structure FuncValue where
  id : Nat
  deriving DecidableEq, Repr

/-- The fields of `tls.Config` that `main` sets. -/
structure TLSConfig where
  MinVersion : Nat
  MaxVersion : Nat
  CipherSuites : List Nat
  NextProtos : List String
  deriving DecidableEq, Repr

/-- Values of the field `Proxy func(*Request) (*url.URL, error)` that occur:
`http.ProxyURL(fixedURL)`, the function that answers `fixedURL` for every
request, and `http.ProxyFromEnvironment` (held by `http.DefaultTransport`). -/
inductive ProxyFunc (α : Type) where
  | ProxyURL (fixedURL : Option α) : ProxyFunc α
  | ProxyFromEnvironment : ProxyFunc α
  deriving DecidableEq, Repr

/-- The struct `http.Transport`.  Its declaration belongs to Go's standard
library; the fields that `main.go` names are listed, all its remaining fields
are gathered in `other`, of a type `ρ` whose zero value is `default`.
Durations are nanosecond counts; `none` is a nil pointer or nil function. -/
structure Transport (α ρ : Type) where
  Proxy : Option (ProxyFunc α)
  TLSClientConfig : Option TLSConfig
  DialContext : Option FuncValue
  TLSHandshakeTimeout : Int
  MaxIdleConns : Int
  MaxIdleConnsPerHost : Int
  IdleConnTimeout : Int
  ResponseHeaderTimeout : Int
  other : ρ
  deriving DecidableEq, Repr

/-- The composite literal `http.Transport{}`: every field at its zero value. -/
def zeroTransport {α ρ : Type} [Inhabited ρ] : Transport α ρ :=
  { Proxy := none, TLSClientConfig := none, DialContext := none,
    TLSHandshakeTimeout := 0, MaxIdleConns := 0, MaxIdleConnsPerHost := 0,
    IdleConnTimeout := 0, ResponseHeaderTimeout := 0, other := default }

/-- The values stored in `client.Transport` (an `http.RoundTripper`). -/
inductive RoundTripper (α ρ : Type) where
  | http3Transport : RoundTripper α ρ
  | http2Transport : RoundTripper α ρ
  | DefaultTransport : RoundTripper α ρ
  | httpTransport (t : Transport α ρ) : RoundTripper α ρ
  deriving DecidableEq, Repr

/-- An `http.Client`; `Transport = none` is the nil interface of `&http.Client{}`. -/
structure Client (α ρ : Type) where
  Transport : Option (RoundTripper α ρ)
  deriving DecidableEq, Repr

/-- An `http.Header`, a Go map from header name to value list; `none` is an
absent key. -/
abbrev Header := String → Option (List String)

/-- The fields of `http.Request` that the program reads or writes. -/
structure Request where
  Method : String
  URL : String
  Header : Header

/-- The fields of `http.Response` that the program reads. -/
structure Response where
  Proto : String
  Status : String
  deriving DecidableEq, Repr

/-- Go's `strings.HasPrefix(s, pre)`:
`len(s) >= len(pre) && s[:len(pre)] == pre`.  The comparison runs over
characters; for well-formed UTF-8 text that agrees with Go's comparison of
bytes. -/
def HasPrefix (s pre : String) : Bool :=
  decide (s.toList.length ≥ pre.toList.length) && (s.toList.take pre.toList.length == pre.toList)

/-! ## The protocol probes -/

/-- Embedding of `canUseHTTP1`.  `newRequest` stands for `http.NewRequest`
(body argument nil) and `clientDo` for `(*http.Client).Do`. -/
def canUseHTTP1 {α ρ : Type} (newRequest : String → String → Result Request)
    (clientDo : Client α ρ → Request → Result Response)
    (client : Client α ρ) (url : String) : Bool :=
  match newRequest "GET" url with
  | .error _ => false
  | .ok req =>
    match clientDo client req with
    | .error _ => false
    | .ok resp => HasPrefix resp.Proto "HTTP/1.1"

/-- Embedding of `canUseHTTP2`: the request goes through a client of its own
whose transport is a fresh `http2.Transport`; the argument `client` is unused. -/
def canUseHTTP2 {α ρ : Type} (newRequest : String → String → Result Request)
    (clientDo : Client α ρ → Request → Result Response)
    (_client : Client α ρ) (url : String) : Bool :=
  let http2Client : Client α ρ := { Transport := some .http2Transport }
  match newRequest "GET" url with
  | .error _ => false
  | .ok req =>
    match clientDo http2Client req with
    | .error _ => false
    | .ok resp => resp.Proto == "HTTP/2.0"

/-- Embedding of `canUseHTTP3` (a placeholder in the source). -/
def canUseHTTP3 {α ρ : Type} (_client : Client α ρ) (_url : String) : Bool :=
  false

/-! ## The transport factory -/

/-- Embedding of `createTransportWithProxy`: a composite literal that sets
`Proxy` and `TLSClientConfig`, followed by six guarded field copies.  (One copy
of the function in the source spells the zero of the `MaxIdleConns` test
`0 * time.Second`; the value is the same 0.) -/
def createTransportWithProxy {α ρ : Type} [Inhabited ρ]
    (baseTransport : Transport α ρ) (proxy : Option α) : Transport α ρ :=
  let transport : Transport α ρ :=
    { (zeroTransport : Transport α ρ) with
      Proxy := some (.ProxyURL proxy),
      TLSClientConfig := baseTransport.TLSClientConfig }
  let transport :=
    if baseTransport.DialContext ≠ none then
      { transport with DialContext := baseTransport.DialContext } else transport
  let transport :=
    if baseTransport.TLSHandshakeTimeout ≠ 0 then
      { transport with TLSHandshakeTimeout := baseTransport.TLSHandshakeTimeout }
    else transport
  let transport :=
    if baseTransport.MaxIdleConns ≠ 0 then
      { transport with MaxIdleConns := baseTransport.MaxIdleConns } else transport
  let transport :=
    if baseTransport.MaxIdleConnsPerHost ≠ 0 then
      { transport with MaxIdleConnsPerHost := baseTransport.MaxIdleConnsPerHost }
    else transport
  let transport :=
    if baseTransport.IdleConnTimeout ≠ 0 then
      { transport with IdleConnTimeout := baseTransport.IdleConnTimeout } else transport
  let transport :=
    if baseTransport.ResponseHeaderTimeout ≠ 0 then
      { transport with ResponseHeaderTimeout := baseTransport.ResponseHeaderTimeout }
    else transport
  transport

/-! ## The request synthesizer -/

/-- Bytes allowed in a header field name (RFC 7230 token characters), as
tested by `textproto.CanonicalMIMEHeaderKey`. -/
def validHeaderFieldByte (c : Char) : Bool :=
  c.isAlphanum ||
    [33, 35, 36, 37, 38, 39, 42, 43, 45, 46, 94, 95, 96, 124, 126].contains c.toNat

/-- Letter-case pass of `textproto.CanonicalMIMEHeaderKey`: the first letter
and every letter after a hyphen in upper case, all other letters in lower
case. -/
def canonicalCase : Bool → List Char → List Char
  | _, [] => []
  | upper, c :: cs =>
    (if upper then c.toUpper else c.toLower) :: canonicalCase (c == '-') cs

/-- Go's `textproto.CanonicalMIMEHeaderKey`, which `http.Header.Set` applies to
the key: a name with a byte outside the token characters is returned
unchanged. -/
def CanonicalMIMEHeaderKey (s : String) : String :=
  if s.toList.all validHeaderFieldByte then String.mk (canonicalCase true s.toList) else s

/-- Go's `http.Header.Set(key, value)`: the canonical key is bound to the
one-element list holding `value`, replacing what was bound before. -/
def Header.Set (h : Header) (key value : String) : Header :=
  Function.update h (CanonicalMIMEHeaderKey key) (some [value])

/-- The empty header `make(http.Header)`. -/
def Header.empty : Header := fun _ => none

/-- Go's `rand.Intn(n)`, call number `k` after the seeding: panics for
`n ≤ 0`, otherwise answers a value of `[0, n)`.  `src k` is the raw output of
the generator at that call; every value of `[0, n)` arises from some `src`. -/
def Intn (src : Nat → Nat) (k : Nat) (n : Nat) : Go Int :=
  if n = 0 then .panic "invalid argument to Intn" else .ret ((src k % n : Nat) : Int)

/-- The local table `userAgents` of `createRandomRequest`. -/
def userAgents : List String :=
  ["Mozilla/5.0 (Windows NT 10.0; Win64; x64) AppleWebKit/537.36 (KHTML, like Gecko) Chrome/91.0.4472.124 Safari/537.36",
   "Mozilla/5.0 (Macintosh; Intel Mac OS X 10_15_7) AppleWebKit/537.36 (KHTML, like Gecko) Chrome/91.0.4472.124 Safari/537.36"]

/-- The local map `headers` of `createRandomRequest`, as its key/value pairs. -/
def headers : List (String × List String) :=
  [("Accept-Language", ["en-US,en;q=0.9", "en-GB,en;q=0.8"]),
   ("Referer", ["https://example.com", "https://another-example.com"])]

/-- The loop `for key, options := range headers` of `createRandomRequest`,
over the pairs in the order `order` in which Go happens to visit the map;
`k` counts the `rand.Intn` calls made so far. -/
def rangeHeaders (src : Nat → Nat) : Nat → List (String × List String) → Header → Go Header
  | _, [], randomHeaders => .ret randomHeaders
  | k, (key, options) :: rest, randomHeaders =>
    match Intn src k options.length with
    | .panic msg => .panic msg
    | .ret i =>
      match sliceAt options i with
      | none => .panic "index out of range"
      | some value => rangeHeaders src (k + 1) rest (randomHeaders.Set key value)

/-- Embedding of `createRandomRequest(method, url)`.  `src` is the random
generator as seeded by `rand.Seed(time.Now().UnixNano())`, `order` the order in
which the `range` loop visits the map `headers` (Go leaves it unspecified),
`newRequest` stands for `http.NewRequest`.  `req.Header` and `randomHeaders`
are the same map, so the final `Set` acts on it. -/
def createRandomRequest (newRequest : String → String → Result Request)
    (src : Nat → Nat) (order : List (String × List String))
    (method url : String) : Go (Result Request) :=
  match Intn src 0 userAgents.length with
  | .panic msg => .panic msg
  | .ret i =>
    match sliceAt userAgents i with
    | none => .panic "index out of range"
    | some randomUserAgent =>
      match rangeHeaders src 1 order Header.empty with
      | .panic msg => .panic msg
      | .ret randomHeaders =>
        match newRequest method url with
        | .error err => .ret (.error err)
        | .ok req =>
          .ret (.ok { req with Header := randomHeaders.Set "User-Agent" randomUserAgent })

/-! ## The proxy list loader -/

/-- What `os.Open` and the `bufio.Scanner` over the file deliver for one file
name: an open error, or the lines handed out by successive `Scan` calls
together with the final `scanner.Err()` (`none` when the scan reached the end
of the file, `some` for a read error or an over-long line). -/
inductive FileOutcome where
  | openError (err : String) : FileOutcome
  | opened (lines : List String) (scanErr : Option String) : FileOutcome
  deriving DecidableEq, Repr

/-- The loop `for scanner.Scan() { ... }` of `loadProxyListFromFile`:
`proxies` is the slice built so far.  `TrimSpace` stands for
`strings.TrimSpace`, `parse` for `url.Parse`. -/
def scanLoop {α : Type} (parse : String → Result α) (TrimSpace : String → String) :
    List String → List α → List α
  | [], proxies => proxies
  | line :: rest, proxies =>
    let proxyStr := TrimSpace line
    match parse proxyStr with
    | .error _ => scanLoop parse TrimSpace rest proxies
    | .ok proxy => scanLoop parse TrimSpace rest (proxies ++ [proxy])

/-- Embedding of `loadProxyListFromFile`; `fs` is the file system.  A nil
slice is the empty list. -/
def loadProxyListFromFile {α : Type} (parse : String → Result α)
    (TrimSpace : String → String) (fs : String → FileOutcome) (filename : String) : List α :=
  match fs filename with
  | .openError _ => []
  | .opened lines scanErr =>
    let proxies := scanLoop parse TrimSpace lines []
    match scanErr with
    | some _ => []
    | none => proxies

/-! ## `main`, from the capability report on -/

/-- The variables of `main` and of the package that the run writes after the
probes, with a record of the files handed to `loadProxyListFromFile` and the
number of worker goroutines started. -/
structure MainState (α ρ : Type) where
  selectedProtocol : String
  client : Client α ρ
  registry : Registry α
  loadedFiles : List String
  workersStarted : Nat
  deriving DecidableEq, Repr

/-- State of `main` right after `client := &http.Client{}` and the probes. -/
def mainStart {α ρ : Type} : MainState α ρ :=
  { selectedProtocol := "", client := { Transport := none },
    registry := initRegistry [] [] [] [], loadedFiles := [], workersStarted := 0 }

/-- The `if canHTTP3 ... else if canHTTP2 ... else if canHTTP1 ... else` chain
of `main`; `none` is the `return` of its last branch. -/
def selectProtocol {α ρ : Type} (canHTTP1 canHTTP2 canHTTP3 : Bool) (st : MainState α ρ) :
    Option (MainState α ρ) :=
  if canHTTP3 then
    some { st with selectedProtocol := "HTTP/3", client := { Transport := some .http3Transport } }
  else if canHTTP2 then
    some { st with selectedProtocol := "HTTP/2", client := { Transport := some .http2Transport } }
  else if canHTTP1 then
    some { st with selectedProtocol := "HTTP/1.1",
                   client := { Transport := some .DefaultTransport } }
  else
    none

/-- The `tls.Config` literal of `main` (`tls.VersionTLS13` is `0x0304`, the
three cipher suites are `0x1301`, `0x1302`, `0x1303`). -/
def tlsConfig : TLSConfig :=
  { MinVersion := 0x0304, MaxVersion := 0x0304,
    CipherSuites := [0x1301, 0x1302, 0x1303],
    NextProtos := ["h2", "http/1.1"] }

/-- The transport `tr` of `main`; `90 * time.Second` in nanoseconds. -/
def tr {α ρ : Type} [Inhabited ρ] : Transport α ρ :=
  { (zeroTransport : Transport α ρ) with
    TLSClientConfig := some tlsConfig, IdleConnTimeout := 90 * 1000000000 }

/-- The four assignments `httpProxies = loadProxyListFromFile(...)` ... of
`main`, in source order. -/
def loadProxies {α ρ : Type} (parse : String → Result α) (TrimSpace : String → String)
    (fs : String → FileOutcome) (st : MainState α ρ) : MainState α ρ :=
  let st := { st with
    registry := { st.registry with
      httpProxies := loadProxyListFromFile parse TrimSpace fs "http_proxies.txt" },
    loadedFiles := st.loadedFiles ++ ["http_proxies.txt"] }
  let st := { st with
    registry := { st.registry with
      httpsProxies := loadProxyListFromFile parse TrimSpace fs "https_proxies.txt" },
    loadedFiles := st.loadedFiles ++ ["https_proxies.txt"] }
  let st := { st with
    registry := { st.registry with
      socks4Proxies := loadProxyListFromFile parse TrimSpace fs "socks4_proxies.txt" },
    loadedFiles := st.loadedFiles ++ ["socks4_proxies.txt"] }
  { st with
    registry := { st.registry with
      socks5Proxies := loadProxyListFromFile parse TrimSpace fs "socks5_proxies.txt" },
    loadedFiles := st.loadedFiles ++ ["socks5_proxies.txt"] }

/-- Embedding of `main` from the capability report to the point where all
workers are started: protocol selection, construction of `tr`, the assignment
`client.Transport = tr`, the four loads, and the loop
`for i := 0; i < concurrency; i++` that starts one goroutine per round. -/
def mainAfterProbe {α ρ : Type} [Inhabited ρ] (parse : String → Result α)
    (TrimSpace : String → String) (fs : String → FileOutcome)
    (canHTTP1 canHTTP2 canHTTP3 : Bool) (concurrency : Int) : MainState α ρ :=
  match selectProtocol canHTTP1 canHTTP2 canHTTP3 (mainStart : MainState α ρ) with
  | none => mainStart
  | some st =>
    let st : MainState α ρ := { st with client := { Transport := some (.httpTransport tr) } }
    let st := loadProxies parse TrimSpace fs st
    { st with workersStarted := concurrency.toNat }

/-- What one round of a worker's loop does after the stop check. -/
inductive Round (α ρ : Type) where
  /-- `getNextProxy` returned nil: sleep one second, `continue`. -/
  | noProxy : Round α ρ
  /-- `createRandomRequest` failed: `continue`. -/
  | requestError (err : String) : Round α ρ
  /-- `client.Do(req)` was called while `client.Transport` held `transport`
  (a client whose `Transport` is nil sends through `http.DefaultTransport`). -/
  | sent (proxy : α) (transport : RoundTripper α ρ) (req : Request)
      (resp : Result Response) : Round α ρ

/-- One round of the worker loop (the `default:` case of the `select`), run
without interference from other goroutines: returns what the round did and
the state after it. -/
def workerRound {α ρ : Type} [Inhabited ρ] (newRequest : String → String → Result Request)
    (clientDo : Client α ρ → Request → Result Response)
    (src : Nat → Nat) (order : List (String × List String)) (targetURL : String)
    (st : MainState α ρ) : Go (Round α ρ × MainState α ρ) :=
  match getNextProxy st.registry with
  | .panic msg => .panic msg
  | .ret (none, registry) => .ret (.noProxy, { st with registry := registry })
  | .ret (some proxy, registry) =>
    let st := { st with registry := registry }
    let st := { st with
      client := { Transport := some (.httpTransport (createTransportWithProxy tr (some proxy))) } }
    match createRandomRequest newRequest src order "GET" targetURL with
    | .panic msg => .panic msg
    | .ret (.error err) => .ret (.requestError err, st)
    | .ret (.ok req) =>
      let transport : RoundTripper α ρ := st.client.Transport.getD RoundTripper.DefaultTransport
      .ret (.sent proxy transport req (clientDo st.client req), st)

/-! ## `getNextProxy` statement by statement, under interleaved callers -/

/-- The four pools, by name. -/
inductive PoolId where
  | http : PoolId
  | https : PoolId
  | socks4 : PoolId
  | socks5 : PoolId
  deriving DecidableEq, Repr

/-- Where a goroutine stands inside `getNextProxy`: before the first `if`
(`start`), or between the statement `proxy := xProxies[xIndex]` and the
statement `xIndex = (xIndex + 1) % len(xProxies)` of the pool it serves from
(`fetched`), or stopped by a run-time panic. -/
inductive CallState (α : Type) where
  | start : CallState α
  | fetched (pool : PoolId) (proxy : α) : CallState α
  | panicked (msg : String) : CallState α
  deriving DecidableEq, Repr

/-- A goroutine that calls `getNextProxy` again and again: its place in the
current call and the values its finished calls returned, oldest first. -/
structure Caller (α : Type) where
  pc : CallState α
  got : List (Option α)
  deriving DecidableEq, Repr

/-- One statement of `getNextProxy`, run by one goroutine on the shared
package variables.  A whole Go statement (with the `if` test before it) is
taken as a single indivisible step, which is more atomicity than Go grants:
the source takes no lock and uses no atomic operation around these
statements. -/
def stepCaller {α : Type} (r : Registry α) (w : Caller α) : Registry α × Caller α :=
  match w.pc with
  | .start =>
    if r.httpProxies.length > 0 then
      match sliceAt r.httpProxies r.httpIndex with
      | none => (r, { w with pc := .panicked "index out of range" })
      | some proxy => (r, { w with pc := .fetched .http proxy })
    else if r.httpsProxies.length > 0 then
      match sliceAt r.httpsProxies r.httpsIndex with
      | none => (r, { w with pc := .panicked "index out of range" })
      | some proxy => (r, { w with pc := .fetched .https proxy })
    else if r.socks4Proxies.length > 0 then
      match sliceAt r.socks4Proxies r.socks4Index with
      | none => (r, { w with pc := .panicked "index out of range" })
      | some proxy => (r, { w with pc := .fetched .socks4 proxy })
    else if r.socks5Proxies.length > 0 then
      match sliceAt r.socks5Proxies r.socks5Index with
      | none => (r, { w with pc := .panicked "index out of range" })
      | some proxy => (r, { w with pc := .fetched .socks5 proxy })
    else
      (r, { w with got := w.got ++ [none] })
  | .fetched .http proxy =>
    ({ r with httpIndex := Int.tmod (r.httpIndex + 1) r.httpProxies.length },
      { pc := .start, got := w.got ++ [some proxy] })
  | .fetched .https proxy =>
    ({ r with httpsIndex := Int.tmod (r.httpsIndex + 1) r.httpsProxies.length },
      { pc := .start, got := w.got ++ [some proxy] })
  | .fetched .socks4 proxy =>
    ({ r with socks4Index := Int.tmod (r.socks4Index + 1) r.socks4Proxies.length },
      { pc := .start, got := w.got ++ [some proxy] })
  | .fetched .socks5 proxy =>
    ({ r with socks5Index := Int.tmod (r.socks5Index + 1) r.socks5Proxies.length },
      { pc := .start, got := w.got ++ [some proxy] })
  | .panicked _ => (r, w)

/-- One whole call run by a goroutine that nobody interrupts: its statements
one after the other. -/
def callAlone {α : Type} (r : Registry α) (w : Caller α) : Registry α × Caller α :=
  let (r1, w1) := stepCaller r w
  match w1.pc with
  | .fetched _ _ => stepCaller r1 w1
  | _ => (r1, w1)

/-- The shared registry together with the goroutines calling `getNextProxy`. -/
structure System (α : Type) where
  registry : Registry α
  callers : List (Caller α)
  deriving DecidableEq, Repr

/-- The scheduler lets goroutine number `i` run its next statement. -/
def stepSystem {α : Type} (i : Nat) (sys : System α) : System α :=
  match sys.callers[i]? with
  | none => sys
  | some w =>
    let (r, w1) := stepCaller sys.registry w
    { registry := r, callers := sys.callers.set i w1 }

/-- An interleaving: the goroutines run one statement each, in the order
given by `schedule`. -/
def runSchedule {α : Type} : List Nat → System α → System α
  | [], sys => sys
  | i :: schedule, sys => runSchedule schedule (stepSystem i sys)

/-! ## The worker goroutine with its deferred calls -/

/-- What one round of the worker loop meets in the world: the outcome of
`http.NewRequest`, of `client.Do`, the state of the random generator and the
visiting order of the header table. -/
structure RoundEnv (α ρ : Type) where
  newRequest : String → String → Result Request
  clientDo : Client α ρ → Request → Result Response
  src : Nat → Nat
  order : List (String × List String)

/-- A call held back by a `defer` statement of the worker function. -/
inductive Deferred where
  | wgDone : Deferred
  | bodyClose (body : Nat) : Deferred
  deriving DecidableEq, Repr

/-- The activation of the function literal that `main` starts as a goroutine:
the program state it works on, the number of response bodies it has received
(body number `k` is the one of its `k`-th successful `client.Do`), the bodies
received and not yet closed, its stack of deferred calls (latest first), and
whether its `wg.Done()` has run. -/
structure WorkerFrame (α ρ : Type) where
  st : MainState α ρ
  received : Nat
  openBodies : List Nat
  deferred : List Deferred
  done : Bool
  deriving DecidableEq, Repr

/-- Entry of the worker function: `defer wg.Done()`. -/
def workerStart {α ρ : Type} (st : MainState α ρ) : WorkerFrame α ρ :=
  { st := st, received := 0, openBodies := [], deferred := [.wgDone], done := false }

/-- The `default:` case of the worker loop, deferred calls included: a round
that ends in `continue` defers nothing; a round whose `client.Do` succeeds
receives a response body and runs `defer resp.Body.Close()`, which puts the
call on the defer stack of the worker function and closes nothing yet. -/
def workerIteration {α ρ : Type} [Inhabited ρ] (targetURL : String) (env : RoundEnv α ρ)
    (f : WorkerFrame α ρ) : Go (WorkerFrame α ρ) :=
  match workerRound env.newRequest env.clientDo env.src env.order targetURL f.st with
  | .panic msg => .panic msg
  | .ret (.noProxy, st) => .ret { f with st := st }
  | .ret (.requestError _, st) => .ret { f with st := st }
  | .ret (.sent _ _ _ (.error _), st) => .ret { f with st := st }
  | .ret (.sent _ _ _ (.ok _), st) =>
    .ret { f with
      st := st, received := f.received + 1,
      openBodies := f.received :: f.openBodies,
      deferred := .bodyClose f.received :: f.deferred }

/-- Running one deferred call. -/
def runDeferred {α ρ : Type} (f : WorkerFrame α ρ) : Deferred → WorkerFrame α ρ
  | .wgDone => { f with done := true }
  | .bodyClose body => { f with openBodies := f.openBodies.erase body }

/-- The `return` of `case <-stop:`: the deferred calls of the worker function
run, latest first. -/
def workerReturn {α ρ : Type} (f : WorkerFrame α ρ) : WorkerFrame α ρ :=
  f.deferred.foldl runDeferred { f with deferred := [] }

/-- The frame at the start of the loop iteration that follows the rounds
`envs`, none of which saw the stop signal. -/
def workerRounds {α ρ : Type} [Inhabited ρ] (targetURL : String) :
    List (RoundEnv α ρ) → WorkerFrame α ρ → Go (WorkerFrame α ρ)
  | [], f => .ret f
  | env :: envs, f =>
    match workerIteration targetURL env f with
    | .panic msg => .panic msg
    | .ret f1 => workerRounds targetURL envs f1

/-- The worker loop `for { select { case <-stop: return; default: ... } }`:
the rounds `envs` run, then the stop signal is seen and the function
returns. -/
def workerLoop {α ρ : Type} [Inhabited ρ] (targetURL : String)
    (envs : List (RoundEnv α ρ)) (f : WorkerFrame α ρ) : Go (WorkerFrame α ρ) :=
  match workerRounds targetURL envs f with
  | .panic msg => .panic msg
  | .ret f1 => .ret (workerReturn f1)

/-! ## Basic facts about one call -/

theorem sliceAt_inRange {α : Type} (xs : List α) (i : Int) (h0 : 0 ≤ i)
    (h1 : i < xs.length) :
    ∃ h : i.toNat < xs.length, sliceAt xs i = some (xs.get ⟨i.toNat, h⟩) := by
  have h : i.toNat < xs.length := by omega
  refine ⟨h, ?_⟩
  simp [sliceAt, h0, List.getElem?_eq_getElem h]

theorem tmod_succ_inRange (i : Int) (n : Nat) (h0 : 0 ≤ i) :
    Int.tmod (i + 1) n = (i + 1) % n :=
  Int.tmod_eq_emod (by omega) (Int.ofNat_zero_le n)

/-- Which branch of `getNextProxy` is taken, read off the pool lengths. -/
theorem active_cases {α : Type} (r : Registry α) :
    (0 < r.httpProxies.length ∧ activePool r = r.httpProxies ∧
        activeCursor r = r.httpIndex) ∨
    (r.httpProxies = [] ∧ 0 < r.httpsProxies.length ∧
        activePool r = r.httpsProxies ∧ activeCursor r = r.httpsIndex) ∨
    (r.httpProxies = [] ∧ r.httpsProxies = [] ∧ 0 < r.socks4Proxies.length ∧
        activePool r = r.socks4Proxies ∧ activeCursor r = r.socks4Index) ∨
    (r.httpProxies = [] ∧ r.httpsProxies = [] ∧ r.socks4Proxies = [] ∧
        0 < r.socks5Proxies.length ∧
        activePool r = r.socks5Proxies ∧ activeCursor r = r.socks5Index) ∨
    (r.httpProxies = [] ∧ r.httpsProxies = [] ∧ r.socks4Proxies = [] ∧
        r.socks5Proxies = [] ∧ activePool r = []) := by
  unfold activePool activeCursor
  by_cases ha : 0 < r.httpProxies.length
  · simp [ha]
  · have ha0 : r.httpProxies = [] := List.length_eq_zero.mp (by omega)
    by_cases hb : 0 < r.httpsProxies.length
    · simp [ha0, hb]
    · have hb0 : r.httpsProxies = [] := List.length_eq_zero.mp (by omega)
      by_cases hc : 0 < r.socks4Proxies.length
      · simp [ha0, hb0, hc]
      · have hc0 : r.socks4Proxies = [] := List.length_eq_zero.mp (by omega)
        by_cases hd : 0 < r.socks5Proxies.length
        · simp [ha0, hb0, hc0, hd]
        · have hd0 : r.socks5Proxies = [] := List.length_eq_zero.mp (by omega)
          simp [ha0, hb0, hc0, hd0]

/-- One call on a registry whose active pool is non-empty and whose active
cursor is in range: it returns the endpoint under the cursor, leaves the
pools alone and advances the active cursor by one modulo the pool length. -/
theorem getNextProxy_active {α : Type} (r : Registry α)
    (hne : 0 < (activePool r).length)
    (h0 : 0 ≤ activeCursor r) (h1 : activeCursor r < (activePool r).length) :
    ∃ (e : α) (s : Registry α),
      (activePool r)[(activeCursor r).toNat]? = some e ∧
      getNextProxy r = .ret (some e, s) ∧
      pools s = pools r ∧ activePool s = activePool r ∧
      activeCursor s = (activeCursor r + 1) % (activePool r).length := by
  obtain ⟨h, hs⟩ := sliceAt_inRange _ _ h0 h1
  simp only [List.get_eq_getElem] at hs
  rcases active_cases r with ⟨ha, hp, hc⟩ | ⟨ha, hb, hp, hc⟩ | ⟨ha, hb, hc', hp, hc⟩ |
    ⟨ha, hb, hc', hd, hp, hc⟩ | ⟨_, _, _, _, hp⟩
  · have hx := tmod_succ_inRange _ r.httpProxies.length (hc ▸ h0)
    refine ⟨_, { r with httpIndex := (r.httpIndex + 1) % r.httpProxies.length },
      List.getElem?_eq_getElem h, ?_⟩
    simp only [hp, hc] at hs h0 ⊢
    simp [getNextProxy, activePool, activeCursor, pools, ha, hs, hx]
  · have hx := tmod_succ_inRange _ r.httpsProxies.length (hc ▸ h0)
    refine ⟨_, { r with httpsIndex := (r.httpsIndex + 1) % r.httpsProxies.length },
      List.getElem?_eq_getElem h, ?_⟩
    simp only [hp, hc] at hs h0 ⊢
    simp [getNextProxy, activePool, activeCursor, pools, ha, hb, hs, hx]
  · have hx := tmod_succ_inRange _ r.socks4Proxies.length (hc ▸ h0)
    refine ⟨_, { r with socks4Index := (r.socks4Index + 1) % r.socks4Proxies.length },
      List.getElem?_eq_getElem h, ?_⟩
    simp only [hp, hc] at hs h0 ⊢
    simp [getNextProxy, activePool, activeCursor, pools, ha, hb, hc', hs, hx]
  · have hx := tmod_succ_inRange _ r.socks5Proxies.length (hc ▸ h0)
    refine ⟨_, { r with socks5Index := (r.socks5Index + 1) % r.socks5Proxies.length },
      List.getElem?_eq_getElem h, ?_⟩
    simp only [hp, hc] at hs h0 ⊢
    simp [getNextProxy, activePool, activeCursor, pools, ha, hb, hc', hd, hs, hx]
  · simp [hp] at hne

/-- State after `n` calls on a registry whose active pool is non-empty and
whose active cursor is in range. -/
theorem runCalls_active {α : Type} (n : Nat) (r : Registry α)
    (hne : 0 < (activePool r).length)
    (h0 : 0 ≤ activeCursor r) (h1 : activeCursor r < (activePool r).length) :
    ∃ s : Registry α, runCalls n r = .ret s ∧ pools s = pools r ∧
      activePool s = activePool r ∧
      activeCursor s = (activeCursor r + n) % (activePool r).length := by
  induction n generalizing r with
  | zero =>
    refine ⟨r, rfl, rfl, rfl, ?_⟩
    simp only [Nat.cast_zero, add_zero]
    exact (Int.emod_eq_of_lt h0 h1).symm
  | succ n ih =>
    obtain ⟨e, s, _, hcall, hpools, hpool, hcur⟩ := getNextProxy_active r hne h0 h1
    have hK : (0 : Int) < ((activePool r).length : Int) := by exact_mod_cast hne
    have hs0 : 0 ≤ activeCursor s := hcur ▸ Int.emod_nonneg _ (ne_of_gt hK)
    have hs1 : activeCursor s < (activePool s).length := by
      rw [hcur, hpool]; exact Int.emod_lt_of_pos _ hK
    obtain ⟨t, hrun, htp, htpool, htcur⟩ := ih s (hpool ▸ hne) hs0 hs1
    refine ⟨t, ?_, htp.trans hpools, htpool.trans hpool, ?_⟩
    · simp only [runCalls, hcall, hrun]
    · rw [htcur, hpool, hcur, Int.emod_add_emod]
      congr 1
      push_cast
      ring

/-- Value of call number `n` on a registry whose active pool is non-empty and
whose active cursor is in range. -/
theorem nthCall_active {α : Type} (r : Registry α) (n : Nat)
    (hne : 0 < (activePool r).length)
    (h0 : 0 ≤ activeCursor r) (h1 : activeCursor r < (activePool r).length) :
    ∃ e : α,
      (activePool r)[((activeCursor r + n) % (activePool r).length).toNat]? = some e ∧
      nthCall r n = .ret (some e) := by
  obtain ⟨s, hrun, _, hpool, hcur⟩ := runCalls_active n r hne h0 h1
  have hK : (0 : Int) < ((activePool r).length : Int) := by exact_mod_cast hne
  have hs0 : 0 ≤ activeCursor s := hcur ▸ Int.emod_nonneg _ (ne_of_gt hK)
  have hs1 : activeCursor s < (activePool s).length := by
    rw [hcur, hpool]; exact Int.emod_lt_of_pos _ hK
  obtain ⟨e, t, he, hcall, _⟩ := getNextProxy_active s (hpool ▸ hne) hs0 hs1
  refine ⟨e, ?_, ?_⟩
  · rw [← hcur, ← hpool]; exact he
  · simp only [nthCall, hrun, hcall]

/-- When `P` is the only non-empty pool, it is the active pool. -/
theorem activePool_of_single {α : Type} (r : Registry α) (P : List α)
    (hone : (pools r).filter (fun p => !p.isEmpty) = [P]) :
    activePool r = P ∧ 0 < P.length := by
  have hmem : P ∈ (pools r).filter (fun p => !p.isEmpty) := by rw [hone]; simp
  have hP : 0 < P.length := by
    have := (List.mem_filter.mp hmem).2
    cases P with
    | nil => simp at this
    | cons x xs => simp
  refine ⟨?_, hP⟩
  have hemp : ∀ l : List α, 0 < l.length → (!l.isEmpty) = true := by
    intro l hl; cases l with
    | nil => simp at hl
    | cons x xs => rfl
  rcases active_cases r with ⟨ha, hp, -⟩ | ⟨ha, hb, hp, -⟩ | ⟨ha, hb, hc, hp, -⟩ |
    ⟨ha, hb, hc, hd, hp, -⟩ | ⟨ha, hb, hc, hd, -⟩
  · rw [hp]
    have h := hone
    simp only [pools, List.filter_cons, hemp _ ha, if_true] at h
    exact (List.cons.inj h).1
  · rw [hp]
    have h := hone
    simp only [pools, ha, List.filter_cons, hemp _ hb, List.isEmpty_nil, Bool.not_true,
      if_true] at h
    simpa using (List.cons.inj h).1
  · rw [hp]
    have h := hone
    simp only [pools, ha, hb, List.filter_cons, hemp _ hc, List.isEmpty_nil, Bool.not_true,
      if_true] at h
    simpa using (List.cons.inj h).1
  · rw [hp]
    have h := hone
    simp only [pools, ha, hb, hc, List.filter_cons, hemp _ hd, List.isEmpty_nil,
      Bool.not_true, if_true] at h
    simpa using (List.cons.inj h).1
  · simp [pools, ha, hb, hc, hd] at hone

/-- With all cursors zero the active cursor is zero. -/
theorem activeCursor_of_zero {α : Type} (r : Registry α) (hz : CursorsZero r) :
    activeCursor r = 0 := by
  obtain ⟨h1, h2, h3, h4⟩ := hz
  unfold activeCursor
  split_ifs <;> assumption

/-- C1. On a registry in which exactly one pool `P` is non-empty and all
cursors start at 0, the `n`-th sequential call of `getNextProxy` (from 0)
returns `P[n mod K]` with `K = len(P)`; the sequence of returned endpoints has
period `K`; and the `K` endpoints returned by any `K` consecutive calls are
the pool's entries, each position once (a rearrangement of the pool). -/
theorem getNextProxy_round_robin {α : Type} (r : Registry α) (P : List α)
    (hone : (pools r).filter (fun p => !p.isEmpty) = [P])
    (hzero : CursorsZero r) :
    (∀ n : Nat, ∃ h : n % P.length < P.length,
        nthCall r n = .ret (some (P.get ⟨n % P.length, h⟩))) ∧
    (∀ n : Nat, nthCall r (n + P.length) = nthCall r n) ∧
    (∀ n : Nat, ((List.range P.length).map (fun i => nthCall r (n + i))).Perm
        (P.map (fun e => Go.ret (some e)))) := by
  obtain ⟨hact, hK⟩ := activePool_of_single r P hone
  have hcur := activeCursor_of_zero r hzero
  have key : ∀ n : Nat, nthCall r n = .ret (P[n % P.length]?) := by
    intro n
    obtain ⟨e, he, hcall⟩ := nthCall_active r n (hact ▸ hK) (by rw [hcur])
      (by rw [hcur, hact]; exact_mod_cast hK)
    rw [hcall, ← he, hact, hcur]
    congr 2
    rw [zero_add, ← Int.natCast_mod, Int.toNat_natCast]
  refine ⟨?_, ?_, ?_⟩
  · intro n
    have h : n % P.length < P.length := Nat.mod_lt n hK
    exact ⟨h, by rw [key, List.getElem?_eq_getElem h]; rfl⟩
  · intro n
    rw [key, key, Nat.add_mod_right]
  · intro n
    have hrot : (List.range P.length).map (fun i => nthCall r (n + i)) =
        (P.rotate n).map (fun e => Go.ret (some e)) := by
      apply List.ext_getElem?
      intro i
      by_cases hi : i < P.length
      · simp only [List.getElem?_map, List.getElem?_range hi, Option.map_some, key]
        rw [List.getElem?_rotate hi]
        have hlt : (i + n) % P.length < P.length := Nat.mod_lt _ hK
        rw [List.getElem?_eq_getElem hlt]
        simp only [Option.map_some', Nat.add_comm n i, List.getElem?_eq_getElem hlt]
      · have h1 : ((List.range P.length).map (fun i => nthCall r (n + i)))[i]? = none := by
          apply List.getElem?_eq_none; simp; omega
        have h2 : ((P.rotate n).map (fun e => Go.ret (some e)))[i]? = none := by
          apply List.getElem?_eq_none; simp; omega
        rw [h1, h2]
    rw [hrot]
    exact (List.rotate_perm P n).map _

/-- Witness for C1: a registry whose only non-empty pool is the HTTPS pool. -/
theorem getNextProxy_round_robin_witness :
    (pools (initRegistry [] [10, 20, 30] [] ([] : List Nat))).filter (fun p => !p.isEmpty)
        = [[10, 20, 30]] ∧
    CursorsZero (initRegistry [] [10, 20, 30] [] ([] : List Nat)) ∧
    nthCall (initRegistry [] [10, 20, 30] [] ([] : List Nat)) (4 + 3)
      = nthCall (initRegistry [] [10, 20, 30] [] []) 4 :=
  ⟨by decide, ⟨rfl, rfl, rfl, rfl⟩,
    (getNextProxy_round_robin (initRegistry [] [10, 20, 30] [] ([] : List Nat)) [10, 20, 30]
      (by decide) ⟨rfl, rfl, rfl, rfl⟩).2.1 4⟩

/-! ### The five branches of `getNextProxy` -/

theorem getNextProxy_http {α : Type} (r : Registry α) (e : α)
    (ha : 0 < r.httpProxies.length) (hs : sliceAt r.httpProxies r.httpIndex = some e) :
    getNextProxy r = .ret (some e,
      { r with httpIndex := Int.tmod (r.httpIndex + 1) r.httpProxies.length }) := by
  simp only [getNextProxy, ha, gt_iff_lt, if_true, hs]

theorem getNextProxy_https {α : Type} (r : Registry α) (e : α)
    (ha : r.httpProxies = []) (hb : 0 < r.httpsProxies.length)
    (hs : sliceAt r.httpsProxies r.httpsIndex = some e) :
    getNextProxy r = .ret (some e,
      { r with httpsIndex := Int.tmod (r.httpsIndex + 1) r.httpsProxies.length }) := by
  simp only [getNextProxy, ha, hb, List.length_nil, gt_iff_lt, lt_self_iff_false, if_false,
    if_true, hs]

theorem getNextProxy_socks4 {α : Type} (r : Registry α) (e : α)
    (ha : r.httpProxies = []) (hb : r.httpsProxies = []) (hc : 0 < r.socks4Proxies.length)
    (hs : sliceAt r.socks4Proxies r.socks4Index = some e) :
    getNextProxy r = .ret (some e,
      { r with socks4Index := Int.tmod (r.socks4Index + 1) r.socks4Proxies.length }) := by
  simp only [getNextProxy, ha, hb, hc, List.length_nil, gt_iff_lt, lt_self_iff_false, if_false,
    if_true, hs]

theorem getNextProxy_socks5 {α : Type} (r : Registry α) (e : α)
    (ha : r.httpProxies = []) (hb : r.httpsProxies = []) (hc : r.socks4Proxies = [])
    (hd : 0 < r.socks5Proxies.length)
    (hs : sliceAt r.socks5Proxies r.socks5Index = some e) :
    getNextProxy r = .ret (some e,
      { r with socks5Index := Int.tmod (r.socks5Index + 1) r.socks5Proxies.length }) := by
  simp only [getNextProxy, ha, hb, hc, hd, List.length_nil, gt_iff_lt, lt_self_iff_false,
    if_false, if_true, hs]

theorem getNextProxy_nil {α : Type} (r : Registry α)
    (ha : r.httpProxies = []) (hb : r.httpsProxies = []) (hc : r.socks4Proxies = [])
    (hd : r.socks5Proxies = []) :
    getNextProxy r = .ret (none, r) := by
  simp only [getNextProxy, ha, hb, hc, hd, List.length_nil, gt_iff_lt, lt_self_iff_false,
    if_false]

/-- C2. On a registry whose cursors are in range, `getNextProxy` returns
normally, and what it returns is the endpoint under the cursor of the first
non-empty pool in the order plain-HTTP, HTTPS, SOCKS4, SOCKS5 (so a non-empty
plain-HTTP pool always wins); the result is nil exactly when all four pools are
empty.  With all four pools empty the call returns nil without a run-time
error, whatever the cursors hold. -/
theorem getNextProxy_priority {α : Type} (r : Registry α) :
    (CursorsInRange r →
      ∃ (proxy : Option α) (s : Registry α), getNextProxy r = .ret (proxy, s) ∧
        (match (poolsWithCursor r).find? (fun pc => !pc.1.isEmpty) with
          | none => proxy = none
          | some pc => ∃ e, sliceAt pc.1 pc.2 = some e ∧ proxy = some e) ∧
        (r.httpProxies ≠ [] →
          ∃ e, sliceAt r.httpProxies r.httpIndex = some e ∧ proxy = some e) ∧
        (proxy = none ↔ ∀ p ∈ pools r, p = [])) ∧
    ((∀ p ∈ pools r, p = []) → getNextProxy r = .ret (none, r)) := by
  have hemp : ∀ l : List α, 0 < l.length → l.isEmpty = false := by
    intro l hl; cases l with
    | nil => simp at hl
    | cons x xs => rfl
  constructor
  · intro hin
    rcases active_cases r with ⟨ha, -, -⟩ | ⟨ha, hb, -, -⟩ | ⟨ha, hb, hc, -, -⟩ |
      ⟨ha, hb, hc, hd, -, -⟩ | ⟨ha, hb, hc, hd, -⟩
    · have hne : r.httpProxies ≠ [] := List.length_pos.mp ha
      obtain ⟨h0, h1⟩ := hin (r.httpProxies, r.httpIndex) (by simp [poolsWithCursor]) hne
      obtain ⟨_, hs⟩ := sliceAt_inRange _ _ h0 h1
      refine ⟨_, _, getNextProxy_http r _ ha hs, ?_, ?_, ?_⟩
      · simp only [poolsWithCursor, List.find?, hemp _ ha, Bool.not_false]
        exact ⟨_, hs, rfl⟩
      · intro _; exact ⟨_, hs, rfl⟩
      · simp [pools, hne]
    · have hne : r.httpsProxies ≠ [] := List.length_pos.mp hb
      obtain ⟨h0, h1⟩ := hin (r.httpsProxies, r.httpsIndex) (by simp [poolsWithCursor]) hne
      obtain ⟨_, hs⟩ := sliceAt_inRange _ _ h0 h1
      refine ⟨_, _, getNextProxy_https r _ ha hb hs, ?_, ?_, ?_⟩
      · simp only [poolsWithCursor, List.find?, ha, hemp _ hb, List.isEmpty_nil, Bool.not_true,
          Bool.not_false]
        exact ⟨_, hs, rfl⟩
      · intro h; exact absurd ha h
      · simp [pools, hne]
    · have hne : r.socks4Proxies ≠ [] := List.length_pos.mp hc
      obtain ⟨h0, h1⟩ := hin (r.socks4Proxies, r.socks4Index) (by simp [poolsWithCursor]) hne
      obtain ⟨_, hs⟩ := sliceAt_inRange _ _ h0 h1
      refine ⟨_, _, getNextProxy_socks4 r _ ha hb hc hs, ?_, ?_, ?_⟩
      · simp only [poolsWithCursor, List.find?, ha, hb, hemp _ hc, List.isEmpty_nil,
          Bool.not_true, Bool.not_false]
        exact ⟨_, hs, rfl⟩
      · intro h; exact absurd ha h
      · simp [pools, hne]
    · have hne : r.socks5Proxies ≠ [] := List.length_pos.mp hd
      obtain ⟨h0, h1⟩ := hin (r.socks5Proxies, r.socks5Index) (by simp [poolsWithCursor]) hne
      obtain ⟨_, hs⟩ := sliceAt_inRange _ _ h0 h1
      refine ⟨_, _, getNextProxy_socks5 r _ ha hb hc hd hs, ?_, ?_, ?_⟩
      · simp only [poolsWithCursor, List.find?, ha, hb, hc, hemp _ hd, List.isEmpty_nil,
          Bool.not_true, Bool.not_false]
        exact ⟨_, hs, rfl⟩
      · intro h; exact absurd ha h
      · simp [pools, hne]
    · refine ⟨none, r, getNextProxy_nil r ha hb hc hd, ?_, ?_, ?_⟩
      · simp [poolsWithCursor, List.find?, ha, hb, hc, hd]
      · intro h; exact absurd ha h
      · simp [pools, ha, hb, hc, hd]
  · intro hall
    have ha := hall r.httpProxies (by simp [pools])
    have hb := hall r.httpsProxies (by simp [pools])
    have hc := hall r.socks4Proxies (by simp [pools])
    have hd := hall r.socks5Proxies (by simp [pools])
    exact getNextProxy_nil r ha hb hc hd

/-- Witness for C2: the plain-HTTP pool wins over a non-empty SOCKS5 pool. -/
theorem getNextProxy_priority_witness :
    CursorsInRange (initRegistry [7, 8] [] [] [9]) ∧
    ∃ (proxy : Option Nat) (s : Registry Nat),
      getNextProxy (initRegistry [7, 8] [] [] [9]) = .ret (proxy, s) ∧
      (proxy = none ↔ ∀ p ∈ pools (initRegistry [7, 8] [] [] [9]), p = []) :=
  have hin : CursorsInRange (initRegistry [7, 8] [] [] [9]) := by
    unfold CursorsInRange; decide
  ⟨hin,
    match (getNextProxy_priority (initRegistry [7, 8] [] [] [9])).1 hin with
    | ⟨proxy, s, hcall, _, _, hnone⟩ => ⟨proxy, s, hcall, hnone⟩⟩

theorem sliceAt_some_bounds {α : Type} (xs : List α) (i : Int) (e : α)
    (h : sliceAt xs i = some e) : 0 ≤ i ∧ i < xs.length := by
  unfold sliceAt at h
  split_ifs at h with h0
  refine ⟨h0, ?_⟩
  have := (List.getElem?_eq_some.mp h).1
  omega

/-- C3. A call of `getNextProxy` that returns changes nothing but the cursor of
the pool it served from: the four endpoint lists are unchanged; a call that
returns nil leaves the whole registry unchanged; a call that returns an
endpoint served from the first non-empty pool `P` sets `P`s cursor to
`(old cursor + 1) mod len(P)` and leaves the other three cursors unchanged. -/
theorem getNextProxy_frame {α : Type} (r s : Registry α) (proxy : Option α)
    (h : getNextProxy r = .ret (proxy, s)) :
    (s.httpProxies = r.httpProxies ∧ s.httpsProxies = r.httpsProxies ∧
      s.socks4Proxies = r.socks4Proxies ∧ s.socks5Proxies = r.socks5Proxies) ∧
    (proxy = none → s = r) ∧
    (proxy ≠ none →
      (r.httpProxies ≠ [] →
        s = { r with httpIndex := (r.httpIndex + 1) % r.httpProxies.length }) ∧
      (r.httpProxies = [] → r.httpsProxies ≠ [] →
        s = { r with httpsIndex := (r.httpsIndex + 1) % r.httpsProxies.length }) ∧
      (r.httpProxies = [] → r.httpsProxies = [] → r.socks4Proxies ≠ [] →
        s = { r with socks4Index := (r.socks4Index + 1) % r.socks4Proxies.length }) ∧
      (r.httpProxies = [] → r.httpsProxies = [] → r.socks4Proxies = [] →
        s = { r with socks5Index := (r.socks5Index + 1) % r.socks5Proxies.length })) := by
  rcases active_cases r with ⟨ha, -, -⟩ | ⟨ha, hb, -, -⟩ | ⟨ha, hb, hc, -, -⟩ |
    ⟨ha, hb, hc, hd, -, -⟩ | ⟨ha, hb, hc, hd, -⟩
  · have hne : r.httpProxies ≠ [] := List.length_pos.mp ha
    cases hs : sliceAt r.httpProxies r.httpIndex with
    | none => simp [getNextProxy, ha, hs] at h
    | some e =>
      rw [getNextProxy_http r e ha hs] at h
      obtain ⟨h0, -⟩ := sliceAt_some_bounds _ _ _ hs
      injection h with h; injection h with hp hst
      subst hp hst
      rw [tmod_succ_inRange _ _ h0]
      simp [hne]
  · have hne : r.httpsProxies ≠ [] := List.length_pos.mp hb
    cases hs : sliceAt r.httpsProxies r.httpsIndex with
    | none => simp [getNextProxy, ha, hb, hs] at h
    | some e =>
      rw [getNextProxy_https r e ha hb hs] at h
      obtain ⟨h0, -⟩ := sliceAt_some_bounds _ _ _ hs
      injection h with h; injection h with hp hst
      subst hp hst
      rw [tmod_succ_inRange _ _ h0]
      simp [ha, hne]
  · have hne : r.socks4Proxies ≠ [] := List.length_pos.mp hc
    cases hs : sliceAt r.socks4Proxies r.socks4Index with
    | none => simp [getNextProxy, ha, hb, hc, hs] at h
    | some e =>
      rw [getNextProxy_socks4 r e ha hb hc hs] at h
      obtain ⟨h0, -⟩ := sliceAt_some_bounds _ _ _ hs
      injection h with h; injection h with hp hst
      subst hp hst
      rw [tmod_succ_inRange _ _ h0]
      simp [ha, hb, hne]
  · have hne : r.socks5Proxies ≠ [] := List.length_pos.mp hd
    cases hs : sliceAt r.socks5Proxies r.socks5Index with
    | none => simp [getNextProxy, ha, hb, hc, hd, hs] at h
    | some e =>
      rw [getNextProxy_socks5 r e ha hb hc hd hs] at h
      obtain ⟨h0, -⟩ := sliceAt_some_bounds _ _ _ hs
      injection h with h; injection h with hp hst
      subst hp hst
      rw [tmod_succ_inRange _ _ h0]
      simp [ha, hb, hc]
  · rw [getNextProxy_nil r ha hb hc hd] at h
    injection h with h; injection h with hp hst
    subst hp hst
    simp

/-- Witness for C3: a call served from the SOCKS4 pool with its cursor on the
last entry wraps that cursor to 0 and touches nothing else. -/
theorem getNextProxy_frame_witness :
    getNextProxy ({ initRegistry [] [] [4, 5] [6] with socks4Index := 1 })
      = .ret (some 5, { initRegistry [] [] [4, 5] [6] with socks4Index := 0 }) ∧
    ({ initRegistry [] [] [4, 5] [6] with socks4Index := 0 } : Registry Nat)
      = { ({ initRegistry [] [] [4, 5] [6] with socks4Index := 1 } : Registry Nat) with
          socks4Index := ((1 : Int) + 1) % ([4, 5] : List Nat).length } :=
  ⟨by decide,
    ((getNextProxy_frame
      ({ initRegistry [] [] [4, 5] [6] with socks4Index := 1 })
      ({ initRegistry [] [] [4, 5] [6] with socks4Index := 0 }) (some 5)
      (by decide)).2.2 (by decide)).2.2.1 rfl rfl (by decide)⟩

theorem cursorsInRange_iff {α : Type} (r : Registry α) :
    CursorsInRange r ↔
      (r.httpProxies ≠ [] → 0 ≤ r.httpIndex ∧ r.httpIndex < r.httpProxies.length) ∧
      (r.httpsProxies ≠ [] → 0 ≤ r.httpsIndex ∧ r.httpsIndex < r.httpsProxies.length) ∧
      (r.socks4Proxies ≠ [] → 0 ≤ r.socks4Index ∧ r.socks4Index < r.socks4Proxies.length) ∧
      (r.socks5Proxies ≠ [] → 0 ≤ r.socks5Index ∧ r.socks5Index < r.socks5Proxies.length) := by
  simp [CursorsInRange, poolsWithCursor]

theorem emod_succ_bounds (i : Int) (n : Nat) (hn : 0 < n) :
    0 ≤ (i + 1) % (n : Int) ∧ (i + 1) % (n : Int) < n := by
  have hK : (0 : Int) < (n : Int) := by exact_mod_cast hn
  exact ⟨Int.emod_nonneg _ (ne_of_gt hK), Int.emod_lt_of_pos _ hK⟩

/-- One call on a registry with cursors in range returns normally, keeps the
cursors in range and keeps the pools. -/
theorem getNextProxy_preserves {α : Type} (r : Registry α) (hin : CursorsInRange r) :
    ∃ (proxy : Option α) (s : Registry α), getNextProxy r = .ret (proxy, s) ∧
      CursorsInRange s ∧ pools s = pools r := by
  obtain ⟨h1, h2, h3, h4⟩ := (cursorsInRange_iff r).mp hin
  rcases active_cases r with ⟨ha, -, -⟩ | ⟨ha, hb, -, -⟩ | ⟨ha, hb, hc, -, -⟩ |
    ⟨ha, hb, hc, hd, -, -⟩ | ⟨ha, hb, hc, hd, -⟩
  · obtain ⟨h0, hlt⟩ := h1 (List.length_pos.mp ha)
    obtain ⟨_, hs⟩ := sliceAt_inRange _ _ h0 hlt
    refine ⟨_, _, getNextProxy_http r _ ha hs, ?_, rfl⟩
    rw [cursorsInRange_iff, tmod_succ_inRange _ _ h0]
    exact ⟨fun _ => emod_succ_bounds _ _ ha, h2, h3, h4⟩
  · obtain ⟨h0, hlt⟩ := h2 (List.length_pos.mp hb)
    obtain ⟨_, hs⟩ := sliceAt_inRange _ _ h0 hlt
    refine ⟨_, _, getNextProxy_https r _ ha hb hs, ?_, rfl⟩
    rw [cursorsInRange_iff, tmod_succ_inRange _ _ h0]
    exact ⟨h1, fun _ => emod_succ_bounds _ _ hb, h3, h4⟩
  · obtain ⟨h0, hlt⟩ := h3 (List.length_pos.mp hc)
    obtain ⟨_, hs⟩ := sliceAt_inRange _ _ h0 hlt
    refine ⟨_, _, getNextProxy_socks4 r _ ha hb hc hs, ?_, rfl⟩
    rw [cursorsInRange_iff, tmod_succ_inRange _ _ h0]
    exact ⟨h1, h2, fun _ => emod_succ_bounds _ _ hc, h4⟩
  · obtain ⟨h0, hlt⟩ := h4 (List.length_pos.mp hd)
    obtain ⟨_, hs⟩ := sliceAt_inRange _ _ h0 hlt
    refine ⟨_, _, getNextProxy_socks5 r _ ha hb hc hd hs, ?_, rfl⟩
    rw [cursorsInRange_iff, tmod_succ_inRange _ _ h0]
    exact ⟨h1, h2, h3, fun _ => emod_succ_bounds _ _ hd⟩
  · exact ⟨none, r, getNextProxy_nil r ha hb hc hd, hin, rfl⟩

theorem runCalls_preserves {α : Type} (n : Nat) (r : Registry α) (hin : CursorsInRange r) :
    ∃ s : Registry α, runCalls n r = .ret s ∧ CursorsInRange s ∧ pools s = pools r := by
  induction n generalizing r with
  | zero => exact ⟨r, rfl, hin, rfl⟩
  | succ n ih =>
    obtain ⟨proxy, s, hcall, hs, hp⟩ := getNextProxy_preserves r hin
    obtain ⟨t, hrun, ht, htp⟩ := ih s hs
    exact ⟨t, by simp only [runCalls, hcall, hrun], ht, htp.trans hp⟩

theorem cursorsInRange_init {α : Type} (http https socks4 socks5 : List α) :
    CursorsInRange (initRegistry http https socks4 socks5) := by
  rw [cursorsInRange_iff]
  simp only [initRegistry, le_refl, Nat.cast_pos, true_and]
  exact ⟨List.length_pos.mpr, List.length_pos.mpr, List.length_pos.mpr, List.length_pos.mpr⟩

/-- C4. Cursor-range invariant: starting from the initial registry (all four
cursors 0, any four loaded lists), any number `n` of sequential `getNextProxy`
calls runs without a run-time error and ends in a registry with the same four
lists in which every non-empty pool has its cursor in `[0, len)`; so the next
call indexes in bounds and returns normally (the out-of-range failure is
unreachable). -/
theorem cursor_range_invariant {α : Type} (http https socks4 socks5 : List α) (n : Nat) :
    ∃ s : Registry α,
      runCalls n (initRegistry http https socks4 socks5) = .ret s ∧
      CursorsInRange s ∧
      pools s = [http, https, socks4, socks5] ∧
      ∃ (proxy : Option α) (t : Registry α), getNextProxy s = .ret (proxy, t) := by
  obtain ⟨s, hrun, hs, hp⟩ :=
    runCalls_preserves n (initRegistry http https socks4 socks5)
      (cursorsInRange_init http https socks4 socks5)
  obtain ⟨proxy, t, hcall, -, -⟩ := getNextProxy_preserves s hs
  exact ⟨s, hrun, hs, hp, proxy, t, hcall⟩

/-! ## Protocol selection -/

/-- C5. For every capability report the selection chain of `main` picks HTTP/3
when HTTP/3 is reported, otherwise HTTP/2 when HTTP/2 is reported, otherwise
HTTP/1.1 when HTTP/1.1 is reported (so HTTP/1.1 together with HTTP/2 gives
HTTP/2, and HTTP/1.1 alone gives HTTP/1.1); with none reported `main` returns
at once: no proxy list has been loaded and no worker has been started (whereas
a run that selects a protocol goes on to load the four lists and to start
`concurrency` workers). -/
theorem protocol_selection {α ρ : Type} [Inhabited ρ] (parse : String → Result α)
    (TrimSpace : String → String) (fs : String → FileOutcome)
    (canHTTP1 canHTTP2 : Bool) (concurrency : Int) (st : MainState α ρ) :
    selectProtocol canHTTP1 canHTTP2 true st =
      some { st with selectedProtocol := "HTTP/3",
                     client := { Transport := some .http3Transport } } ∧
    selectProtocol canHTTP1 true false st =
      some { st with selectedProtocol := "HTTP/2",
                     client := { Transport := some .http2Transport } } ∧
    selectProtocol true false false st =
      some { st with selectedProtocol := "HTTP/1.1",
                     client := { Transport := some .DefaultTransport } } ∧
    selectProtocol false false false st = none ∧
    (mainAfterProbe parse TrimSpace fs canHTTP1 canHTTP2 true concurrency
        : MainState α ρ).selectedProtocol = "HTTP/3" ∧
    (mainAfterProbe parse TrimSpace fs canHTTP1 true false concurrency
        : MainState α ρ).selectedProtocol = "HTTP/2" ∧
    (mainAfterProbe parse TrimSpace fs true false false concurrency
        : MainState α ρ).selectedProtocol = "HTTP/1.1" ∧
    (mainAfterProbe parse TrimSpace fs false false false concurrency
        : MainState α ρ).loadedFiles = [] ∧
    (mainAfterProbe parse TrimSpace fs false false false concurrency
        : MainState α ρ).workersStarted = 0 ∧
    (mainAfterProbe parse TrimSpace fs false false false concurrency
        : MainState α ρ).registry = initRegistry [] [] [] [] ∧
    (mainAfterProbe parse TrimSpace fs true false false concurrency
        : MainState α ρ).loadedFiles =
      ["http_proxies.txt", "https_proxies.txt", "socks4_proxies.txt", "socks5_proxies.txt"] ∧
    (mainAfterProbe parse TrimSpace fs true false false concurrency
        : MainState α ρ).workersStarted = concurrency.toNat := by
  refine ⟨?_, ?_, ?_, ?_, ?_, ?_, ?_, ?_, ?_, ?_, ?_, ?_⟩ <;>
    simp [selectProtocol, mainAfterProbe, loadProxies, mainStart]

/-! ## The probes -/

theorem hasPrefix_iff (s pre : String) :
    HasPrefix s pre = true ↔ pre.toList <+: s.toList := by
  unfold HasPrefix
  rw [Bool.and_eq_true, decide_eq_true_iff, beq_iff_eq]
  constructor
  · rintro ⟨-, h⟩
    exact h ▸ List.take_prefix _ _
  · intro h
    exact ⟨h.length_le, List.prefix_iff_eq_take.mp h ▸ rfl⟩

/-- C6. `canUseHTTP1` answers true exactly when the request is built and sent
(through the given client) without error and the protocol string of the
response starts with "HTTP/1.1"; `canUseHTTP2` answers true exactly when the
request is built and sent (through its own HTTP/2 client) without error and
the protocol string of the response is "HTTP/2.0"; `canUseHTTP3` answers
false for every client and target.  Each probe is a total function to a
boolean: an error of building or of sending gives false and nothing else. -/
theorem probe_report {α ρ : Type} (newRequest : String → String → Result Request)
    (clientDo : Client α ρ → Request → Result Response)
    (client : Client α ρ) (url : String) :
    (canUseHTTP1 newRequest clientDo client url = true ↔
      ∃ req resp, newRequest "GET" url = .ok req ∧ clientDo client req = .ok resp ∧
        "HTTP/1.1".toList <+: resp.Proto.toList) ∧
    (canUseHTTP2 newRequest clientDo client url = true ↔
      ∃ req resp, newRequest "GET" url = .ok req ∧
        clientDo { Transport := some .http2Transport } req = .ok resp ∧
        resp.Proto = "HTTP/2.0") ∧
    canUseHTTP3 client url = false ∧
    (∀ err, newRequest "GET" url = .error err →
      canUseHTTP1 newRequest clientDo client url = false ∧
      canUseHTTP2 newRequest clientDo client url = false) ∧
    (∀ req err, newRequest "GET" url = .ok req → clientDo client req = .error err →
      canUseHTTP1 newRequest clientDo client url = false) ∧
    (∀ req err, newRequest "GET" url = .ok req →
      clientDo { Transport := some .http2Transport } req = .error err →
      canUseHTTP2 newRequest clientDo client url = false) := by
  refine ⟨?_, ?_, rfl, ?_, ?_, ?_⟩
  · unfold canUseHTTP1
    cases hreq : newRequest "GET" url with
    | error e => simp
    | ok req =>
      cases hdo : clientDo client req with
      | error e => simp [hdo]
      | ok resp => simp [hdo, hasPrefix_iff]
  · unfold canUseHTTP2
    cases hreq : newRequest "GET" url with
    | error e => simp
    | ok req =>
      cases hdo : clientDo { Transport := some .http2Transport } req with
      | error e => simp [hdo]
      | ok resp => simp [hdo]
  · intro err h
    simp [canUseHTTP1, canUseHTTP2, h]
  · intro req err h hdo
    simp [canUseHTTP1, h, hdo]
  · intro req err h hdo
    simp [canUseHTTP2, h, hdo]

/-! ## The transport factory -/

/-- C7. For every base transport and proxy, `createTransportWithProxy` returns
a transport whose proxy function is `http.ProxyURL(proxy)`, whose TLS
configuration, dial function, TLS handshake timeout, max idle connections,
max idle connections per host, idle-connection timeout and response-header
timeout each equal the base value when that value is set (non-zero) in the
base and are zero otherwise, and whose every other field is the zero value
whatever the base holds. -/
theorem createTransportWithProxy_fields {α ρ : Type} [Inhabited ρ]
    (baseTransport : Transport α ρ) (proxy : Option α) :
    createTransportWithProxy baseTransport proxy =
      { Proxy := some (.ProxyURL proxy),
        TLSClientConfig := baseTransport.TLSClientConfig,
        DialContext := baseTransport.DialContext,
        TLSHandshakeTimeout := baseTransport.TLSHandshakeTimeout,
        MaxIdleConns := baseTransport.MaxIdleConns,
        MaxIdleConnsPerHost := baseTransport.MaxIdleConnsPerHost,
        IdleConnTimeout := baseTransport.IdleConnTimeout,
        ResponseHeaderTimeout := baseTransport.ResponseHeaderTimeout,
        other := default } ∧
    (createTransportWithProxy baseTransport proxy).TLSClientConfig =
      (if baseTransport.TLSClientConfig ≠ none then baseTransport.TLSClientConfig else none) ∧
    (createTransportWithProxy baseTransport proxy).DialContext =
      (if baseTransport.DialContext ≠ none then baseTransport.DialContext else none) ∧
    (createTransportWithProxy baseTransport proxy).TLSHandshakeTimeout =
      (if baseTransport.TLSHandshakeTimeout ≠ 0 then baseTransport.TLSHandshakeTimeout else 0) ∧
    (createTransportWithProxy baseTransport proxy).MaxIdleConns =
      (if baseTransport.MaxIdleConns ≠ 0 then baseTransport.MaxIdleConns else 0) ∧
    (createTransportWithProxy baseTransport proxy).MaxIdleConnsPerHost =
      (if baseTransport.MaxIdleConnsPerHost ≠ 0 then baseTransport.MaxIdleConnsPerHost else 0) ∧
    (createTransportWithProxy baseTransport proxy).IdleConnTimeout =
      (if baseTransport.IdleConnTimeout ≠ 0 then baseTransport.IdleConnTimeout else 0) ∧
    (createTransportWithProxy baseTransport proxy).ResponseHeaderTimeout =
      (if baseTransport.ResponseHeaderTimeout ≠ 0 then baseTransport.ResponseHeaderTimeout
        else 0) ∧
    (createTransportWithProxy baseTransport proxy).other = default := by
  have key : createTransportWithProxy baseTransport proxy =
      { Proxy := some (.ProxyURL proxy),
        TLSClientConfig := baseTransport.TLSClientConfig,
        DialContext := baseTransport.DialContext,
        TLSHandshakeTimeout := baseTransport.TLSHandshakeTimeout,
        MaxIdleConns := baseTransport.MaxIdleConns,
        MaxIdleConnsPerHost := baseTransport.MaxIdleConnsPerHost,
        IdleConnTimeout := baseTransport.IdleConnTimeout,
        ResponseHeaderTimeout := baseTransport.ResponseHeaderTimeout,
        other := default } := by
    unfold createTransportWithProxy zeroTransport
    by_cases h1 : baseTransport.DialContext = none <;>
    by_cases h2 : baseTransport.TLSHandshakeTimeout = 0 <;>
    by_cases h3 : baseTransport.MaxIdleConns = 0 <;>
    by_cases h4 : baseTransport.MaxIdleConnsPerHost = 0 <;>
    by_cases h5 : baseTransport.IdleConnTimeout = 0 <;>
    by_cases h6 : baseTransport.ResponseHeaderTimeout = 0 <;>
    simp [h1, h2, h3, h4, h5, h6]
  refine ⟨key, ?_, ?_, ?_, ?_, ?_, ?_, ?_, ?_⟩ <;> rw [key] <;> simp only [ne_eq, ite_not]
  all_goals (split_ifs with h; exact h)
  all_goals rfl

/-! ## The request synthesizer -/

theorem perm_pair {β : Type} (a b : β) (l : List β) (h : l.Perm [a, b]) :
    l = [a, b] ∨ l = [b, a] := by
  have hl := h.length_eq
  match l, hl with
  | [x, y], _ =>
    have hx : x ∈ [a, b] := h.subset (by simp)
    have hy : y ∈ [a, b] := h.subset (by simp)
    have ha : a ∈ [x, y] := h.symm.subset (by simp)
    have hb : b ∈ [x, y] := h.symm.subset (by simp)
    simp at hx hy ha hb
    rcases hx with rfl | rfl <;> rcases hy with rfl | rfl <;> simp_all

theorem canonical_acceptLanguage :
    CanonicalMIMEHeaderKey "Accept-Language" = "Accept-Language" := by decide

theorem canonical_referer : CanonicalMIMEHeaderKey "Referer" = "Referer" := by decide

theorem canonical_userAgent : CanonicalMIMEHeaderKey "User-Agent" = "User-Agent" := by decide

theorem intn_two (src : Nat → Nat) (k : Nat) :
    Intn src k 2 = .ret 0 ∨ Intn src k 2 = .ret 1 := by
  unfold Intn
  have h : src k % 2 = 0 ∨ src k % 2 = 1 := by omega
  rcases h with h | h <;> simp [h]

/-- The header map after the three `Set` calls, whichever of the two names of
the table was visited first. -/
theorem header_three (a b u : String) (h : Header)
    (hh : h = ((Header.empty.Set "Accept-Language" a).Set "Referer" b).Set "User-Agent" u ∨
          h = ((Header.empty.Set "Referer" b).Set "Accept-Language" a).Set "User-Agent" u) :
    (∀ name, h name ≠ none ↔
      name = "Accept-Language" ∨ name = "Referer" ∨ name = "User-Agent") ∧
    h "Accept-Language" = some [a] ∧ h "Referer" = some [b] ∧ h "User-Agent" = some [u] := by
  rcases hh with rfl | rfl
  · refine ⟨?_, ?_, ?_, ?_⟩
    · intro name
      simp only [Header.Set, Header.empty, canonical_acceptLanguage, canonical_referer,
        canonical_userAgent, Function.update_apply]
      by_cases h1 : name = "User-Agent"
      · simp [h1]
      · by_cases h2 : name = "Referer"
        · simp [h2]
        · by_cases h3 : name = "Accept-Language" <;> simp [h1, h2, h3]
    all_goals
      simp [Header.Set, Header.empty, canonical_acceptLanguage, canonical_referer,
        canonical_userAgent, Function.update_apply]
  · refine ⟨?_, ?_, ?_, ?_⟩
    · intro name
      simp only [Header.Set, Header.empty, canonical_acceptLanguage, canonical_referer,
        canonical_userAgent, Function.update_apply]
      by_cases h1 : name = "User-Agent"
      · simp [h1]
      · by_cases h2 : name = "Referer"
        · simp [h2]
        · by_cases h3 : name = "Accept-Language" <;> simp [h1, h2, h3]
    all_goals
      simp [Header.Set, Header.empty, canonical_acceptLanguage, canonical_referer,
        canonical_userAgent, Function.update_apply]

/-- One round of the `range` loop at an entry with two candidate values. -/
theorem rangeHeaders_pick (src : Nat → Nat) (k : Nat) (x y : String) :
    ∃ v ∈ [x, y], ∀ (key : String) (rest : List (String × List String)) (h : Header),
      rangeHeaders src k ((key, [x, y]) :: rest) h =
        rangeHeaders src (k + 1) rest (h.Set key v) := by
  rcases intn_two src k with e | e
  · refine ⟨x, by simp, ?_⟩
    intro key rest h
    simp only [rangeHeaders, List.length_cons, List.length_nil, e]
    rfl
  · refine ⟨y, by simp, ?_⟩
    intro key rest h
    simp only [rangeHeaders, List.length_cons, List.length_nil, e]
    rfl

/-- The `range` loop over the two-entry table, in either visiting order. -/
theorem rangeHeaders_table (src : Nat → Nat) (order : List (String × List String))
    (horder : order.Perm headers) :
    ∃ a b : String, a ∈ ["en-US,en;q=0.9", "en-GB,en;q=0.8"] ∧
      b ∈ ["https://example.com", "https://another-example.com"] ∧
      (rangeHeaders src 1 order Header.empty =
          .ret ((Header.empty.Set "Accept-Language" a).Set "Referer" b) ∨
       rangeHeaders src 1 order Header.empty =
          .ret ((Header.empty.Set "Referer" b).Set "Accept-Language" a)) := by
  rcases perm_pair _ _ _ horder with rfl | rfl
  · obtain ⟨a, ha, h1⟩ := rangeHeaders_pick src 1 "en-US,en;q=0.9" "en-GB,en;q=0.8"
    obtain ⟨b, hb, h2⟩ :=
      rangeHeaders_pick src 2 "https://example.com" "https://another-example.com"
    refine ⟨a, b, ha, hb, Or.inl ?_⟩
    rw [h1, h2]
    rfl
  · obtain ⟨b, hb, h1⟩ :=
      rangeHeaders_pick src 1 "https://example.com" "https://another-example.com"
    obtain ⟨a, ha, h2⟩ := rangeHeaders_pick src 2 "en-US,en;q=0.9" "en-GB,en;q=0.8"
    refine ⟨a, b, ha, hb, Or.inr ?_⟩
    rw [h1, h2]
    rfl

/-- C8. Whenever request construction succeeds, for every state of the random
generator and every visiting order of the header table, `createRandomRequest`
returns a request whose header map has exactly the names Accept-Language,
Referer and User-Agent, each bound to a single value, and that value belongs
to the name's candidate list: one of the two Accept-Language values, one of
the two Referer values, one of the two user-agent strings. -/
theorem createRandomRequest_headers (newRequest : String → String → Result Request)
    (src : Nat → Nat) (order : List (String × List String)) (method url : String)
    (req0 : Request) (horder : order.Perm headers)
    (hreq : newRequest method url = .ok req0) :
    ∃ req : Request,
      createRandomRequest newRequest src order method url = .ret (.ok req) ∧
      req.Method = req0.Method ∧ req.URL = req0.URL ∧
      (∀ name, req.Header name ≠ none ↔
        name = "Accept-Language" ∨ name = "Referer" ∨ name = "User-Agent") ∧
      (∃ v ∈ ["en-US,en;q=0.9", "en-GB,en;q=0.8"],
        req.Header "Accept-Language" = some [v]) ∧
      (∃ v ∈ ["https://example.com", "https://another-example.com"],
        req.Header "Referer" = some [v]) ∧
      (∃ v ∈ userAgents, req.Header "User-Agent" = some [v]) := by
  obtain ⟨a, b, ha, hb, hloop⟩ := rangeHeaders_table src order horder
  have hua : ∃ u ∈ userAgents, ∃ i, Intn src 0 userAgents.length = .ret i ∧
      sliceAt userAgents i = some u := by
    rcases intn_two src 0 with e0 | e0
    · exact ⟨_, List.mem_cons_self _ _, 0, e0, rfl⟩
    · exact ⟨_, List.mem_cons_of_mem _ (List.mem_cons_self _ _), 1, e0, rfl⟩
  obtain ⟨u, hu, i, hi, hsl⟩ := hua
  rcases hloop with hloop | hloop
  · have h3 := header_three a b u _ (Or.inl rfl)
    refine ⟨{ req0 with Header :=
        ((Header.empty.Set "Accept-Language" a).Set "Referer" b).Set "User-Agent" u },
      ?_, rfl, rfl, h3.1, ⟨a, ha, h3.2.1⟩, ⟨b, hb, h3.2.2.1⟩, ⟨u, hu, h3.2.2.2⟩⟩
    simp only [createRandomRequest, hi, hsl, hloop, hreq]
  · have h3 := header_three a b u _ (Or.inr rfl)
    refine ⟨{ req0 with Header :=
        ((Header.empty.Set "Referer" b).Set "Accept-Language" a).Set "User-Agent" u },
      ?_, rfl, rfl, h3.1, ⟨a, ha, h3.2.1⟩, ⟨b, hb, h3.2.2.1⟩, ⟨u, hu, h3.2.2.2⟩⟩
    simp only [createRandomRequest, hi, hsl, hloop, hreq]

/-- Witness for C8: the generator that always draws 0, the table visited in
source order. -/
theorem createRandomRequest_headers_witness :
    ∃ req : Request,
      createRandomRequest (fun m u => .ok { Method := m, URL := u, Header := Header.empty })
        (fun _ => 0) headers "GET" "http://target:80" = .ret (.ok req) ∧
      (∃ v ∈ userAgents, req.Header "User-Agent" = some [v]) :=
  match createRandomRequest_headers
      (fun m u => .ok { Method := m, URL := u, Header := Header.empty })
      (fun _ => 0) headers "GET" "http://target:80"
      { Method := "GET", URL := "http://target:80", Header := Header.empty }
      (List.Perm.refl _) rfl with
  | ⟨req, hcall, _, _, _, _, _, hua⟩ => ⟨req, hcall, hua⟩

/-! ## The proxy list loader -/

theorem scanLoop_eq {α : Type} (parse : String → Result α) (TrimSpace : String → String)
    (lines : List String) (proxies : List α) :
    scanLoop parse TrimSpace lines proxies =
      proxies ++ lines.filterMap (fun line => (parse (TrimSpace line)).toOption) := by
  induction lines generalizing proxies with
  | nil => simp [scanLoop]
  | cons line rest ih =>
    cases hp : parse (TrimSpace line) with
    | error e => simp [scanLoop, hp, ih, Except.toOption]
    | ok proxy => simp [scanLoop, hp, ih, Except.toOption]

/-- C9, as stated, fails: a source that is opened, hands out one well-formed
line and then stops with a scanner error (an over-long second line) yields the
empty pool, not the pool holding the endpoint of the first line. -/
theorem loadProxyListFromFile_scan_error_counterexample :
    loadProxyListFromFile (fun s => (.ok s : Result String)) (fun s => s)
        (fun _ => .opened ["http://10.0.0.1:8080"] (some "bufio.Scanner: token too long"))
        "http_proxies.txt" = [] ∧
    ["http://10.0.0.1:8080"].filterMap
        (fun line => ((.ok line : Result String)).toOption) = ["http://10.0.0.1:8080"] := by
  constructor <;> rfl

/-- C9, amended. For a source that is opened and scanned to its end without a
read error, `loadProxyListFromFile` returns exactly the endpoints of the
trimmed lines that parse, in file order (a line that fails to parse is
skipped, no other line is lost); for a source that cannot be opened, and for
one whose scan stops with a read error, it returns the empty pool.  Each of
the four loads of `main` reads its own source only: replacing one source
leaves the other three pools as they were. -/
theorem loadProxyListFromFile_spec {α ρ : Type} (parse : String → Result α)
    (TrimSpace : String → String) (fs : String → FileOutcome) (filename : String) :
    (∀ lines, fs filename = .opened lines none →
      loadProxyListFromFile parse TrimSpace fs filename =
        lines.filterMap (fun line => (parse (TrimSpace line)).toOption)) ∧
    (∀ lines err, fs filename = .opened lines (some err) →
      loadProxyListFromFile parse TrimSpace fs filename = []) ∧
    (∀ err, fs filename = .openError err →
      loadProxyListFromFile parse TrimSpace fs filename = []) ∧
    (∀ (st : MainState α ρ),
      pools (loadProxies parse TrimSpace fs st).registry =
        [loadProxyListFromFile parse TrimSpace fs "http_proxies.txt",
         loadProxyListFromFile parse TrimSpace fs "https_proxies.txt",
         loadProxyListFromFile parse TrimSpace fs "socks4_proxies.txt",
         loadProxyListFromFile parse TrimSpace fs "socks5_proxies.txt"]) ∧
    (∀ (fs2 : String → FileOutcome) (name : String), fs2 name = fs name →
      loadProxyListFromFile parse TrimSpace fs2 name =
        loadProxyListFromFile parse TrimSpace fs name) := by
  refine ⟨?_, ?_, ?_, ?_, ?_⟩
  · intro lines h
    simp [loadProxyListFromFile, h, scanLoop_eq]
  · intro lines err h
    simp [loadProxyListFromFile, h]
  · intro err h
    simp [loadProxyListFromFile, h]
  · intro st
    rfl
  · intro fs2 name h
    simp [loadProxyListFromFile, h]

/-- Witness for C9 (amended): a source whose middle line does not parse. -/
theorem loadProxyListFromFile_spec_witness :
    loadProxyListFromFile
        (fun s => if s = "://bad" then (.error "missing protocol scheme" : Result String)
          else .ok s)
        (fun s => s)
        (fun _ => .opened ["http://10.0.0.1:8080", "://bad", "http://10.0.0.2:8080"] none)
        "socks5_proxies.txt" =
      ["http://10.0.0.1:8080", "http://10.0.0.2:8080"] :=
  ((@loadProxyListFromFile_spec String Unit
      (fun s => if s = "://bad" then (.error "missing protocol scheme" : Result String)
          else .ok s)
      (fun s => s)
      (fun _ => .opened ["http://10.0.0.1:8080", "://bad", "http://10.0.0.2:8080"] none)
      "socks5_proxies.txt").1 _ rfl).trans (by decide)

/-! ## The transport in effect when a worker sends -/

/-- C10 fails on the code.  With HTTP/1.1 and HTTP/2 reported, the selection
chain stores an `http2.Transport` in the client and records "HTTP/2", but
`main` then overwrites `client.Transport` with the plain `http.Transport`
`tr`, and a worker round overwrites it again with
`createTransportWithProxy(tr, proxy)`: the request is sent through a plain
`http.Transport`, not through the HTTP/2 transport that was selected. -/
theorem http2_selection_not_in_effect :
    (selectProtocol true true false (mainStart : MainState String Unit)).map
        (fun st => st.client.Transport) = some (some .http2Transport) ∧
    (mainAfterProbe (fun s => .ok s) (fun s => s)
        (fun _ => .opened ["http://10.0.0.1:8080"] none) true true false 1
        : MainState String Unit).selectedProtocol = "HTTP/2" ∧
    (mainAfterProbe (fun s => .ok s) (fun s => s)
        (fun _ => .opened ["http://10.0.0.1:8080"] none) true true false 1
        : MainState String Unit).client.Transport = some (.httpTransport tr) ∧
    ∃ (req : Request) (st : MainState String Unit),
      workerRound (fun m u => .ok { Method := m, URL := u, Header := Header.empty })
        (fun _ _ => .error "connection refused") (fun _ => 0) headers "http://target:80"
        (mainAfterProbe (fun s => .ok s) (fun s => s)
          (fun _ => .opened ["http://10.0.0.1:8080"] none) true true false 1) =
      .ret (.sent "http://10.0.0.1:8080"
        (.httpTransport (createTransportWithProxy tr (some "http://10.0.0.1:8080")))
        req (.error "connection refused"), st) ∧
      (RoundTripper.httpTransport (createTransportWithProxy tr (some "http://10.0.0.1:8080"))
        : RoundTripper String Unit) ≠ .http2Transport :=
  ⟨rfl, rfl, rfl, _, _, rfl, by simp⟩

/-! ## Interleaved callers of `getNextProxy` -/

/-- The statement-by-statement model agrees with `getNextProxy`: a goroutine
that runs one whole call without interruption ends where the function says. -/
theorem callAlone_eq_getNextProxy {α : Type} (r : Registry α) (got : List (Option α)) :
    (∀ msg, getNextProxy r = .panic msg →
      callAlone r { pc := .start, got := got } = (r, { pc := .panicked msg, got := got })) ∧
    (∀ proxy s, getNextProxy r = .ret (proxy, s) →
      callAlone r { pc := .start, got := got } =
        (s, { pc := .start, got := got ++ [proxy] })) := by
  rcases active_cases r with ⟨ha, -, -⟩ | ⟨ha, hb, -, -⟩ | ⟨ha, hb, hc, -, -⟩ |
    ⟨ha, hb, hc, hd, -, -⟩ | ⟨ha, hb, hc, hd, -⟩
  · cases hs : sliceAt r.httpProxies r.httpIndex with
    | none =>
      have hg : getNextProxy r = .panic "index out of range" := by
        simp [getNextProxy, ha, hs]
      rw [hg]
      refine ⟨?_, (by intro _ _ h; cases h)⟩
      intro msg h
      injection h with h
      subst h
      simp [callAlone, stepCaller, ha, hs]
    | some e =>
      rw [getNextProxy_http r e ha hs]
      refine ⟨(by intro _ h; cases h), ?_⟩
      intro proxy s h
      injection h with h
      injection h with h1 h2
      subst h1 h2
      simp [callAlone, stepCaller, ha, hs]
  · cases hs : sliceAt r.httpsProxies r.httpsIndex with
    | none =>
      have hg : getNextProxy r = .panic "index out of range" := by
        simp [getNextProxy, ha, hb, hs]
      rw [hg]
      refine ⟨?_, (by intro _ _ h; cases h)⟩
      intro msg h
      injection h with h
      subst h
      simp [callAlone, stepCaller, ha, hb, hs]
    | some e =>
      rw [getNextProxy_https r e ha hb hs]
      refine ⟨(by intro _ h; cases h), ?_⟩
      intro proxy s h
      injection h with h
      injection h with h1 h2
      subst h1 h2
      simp [callAlone, stepCaller, ha, hb, hs]
  · cases hs : sliceAt r.socks4Proxies r.socks4Index with
    | none =>
      have hg : getNextProxy r = .panic "index out of range" := by
        simp [getNextProxy, ha, hb, hc, hs]
      rw [hg]
      refine ⟨?_, (by intro _ _ h; cases h)⟩
      intro msg h
      injection h with h
      subst h
      simp [callAlone, stepCaller, ha, hb, hc, hs]
    | some e =>
      rw [getNextProxy_socks4 r e ha hb hc hs]
      refine ⟨(by intro _ h; cases h), ?_⟩
      intro proxy s h
      injection h with h
      injection h with h1 h2
      subst h1 h2
      simp [callAlone, stepCaller, ha, hb, hc, hs]
  · cases hs : sliceAt r.socks5Proxies r.socks5Index with
    | none =>
      have hg : getNextProxy r = .panic "index out of range" := by
        simp [getNextProxy, ha, hb, hc, hd, hs]
      rw [hg]
      refine ⟨?_, (by intro _ _ h; cases h)⟩
      intro msg h
      injection h with h
      subst h
      simp [callAlone, stepCaller, ha, hb, hc, hd, hs]
    | some e =>
      rw [getNextProxy_socks5 r e ha hb hc hd hs]
      refine ⟨(by intro _ h; cases h), ?_⟩
      intro proxy s h
      injection h with h
      injection h with h1 h2
      subst h1 h2
      simp [callAlone, stepCaller, ha, hb, hc, hd, hs]
  · rw [getNextProxy_nil r ha hb hc hd]
    refine ⟨(by intro _ h; cases h), ?_⟩
    intro proxy s h
    injection h with h
    injection h with h1 h2
    subst h1 h2
    simp [callAlone, stepCaller, ha, hb, hc, hd]

/-- C11 fails on the code.  Two goroutines call `getNextProxy` on a registry
whose only non-empty pool is `[10, 20]` (cursor 0).  In the interleaving in
which each runs `proxy := httpProxies[httpIndex]` before either runs
`httpIndex = (httpIndex + 1) % len(httpProxies)`, both calls return entry 0,
entry 1 is handed to nobody in that period of two calls, and the cursor ends
at 0 again; run one after the other, the same two calls return entry 0 and
entry 1 and leave the cursor at 0. -/
theorem concurrent_getNextProxy_hands_out_twice :
    runSchedule [0, 1, 0, 1]
        { registry := initRegistry [10, 20] [] [] ([] : List Nat),
          callers := [{ pc := .start, got := [] }, { pc := .start, got := [] }] } =
      { registry := initRegistry [10, 20] [] [] [],
        callers := [{ pc := .start, got := [some 10] }, { pc := .start, got := [some 10] }] } ∧
    runSchedule [0, 0, 1, 1]
        { registry := initRegistry [10, 20] [] [] ([] : List Nat),
          callers := [{ pc := .start, got := [] }, { pc := .start, got := [] }] } =
      { registry := initRegistry [10, 20] [] [] [],
        callers := [{ pc := .start, got := [some 10] }, { pc := .start, got := [some 20] }] } := by
  constructor <;> decide

/-! ## Response bodies in the worker loop -/

/-- One round of a worker that serves from a one-entry plain-HTTP pool, builds
its request and gets a response: the frame gains one received body, one open
body and one deferred `Close`; the registry is as before. -/
theorem workerIteration_sent {α ρ : Type} [Inhabited ρ] (targetURL : String)
    (env : RoundEnv α ρ) (f : WorkerFrame α ρ) (p : α) (req : Request) (resp : Response)
    (hreg : f.st.registry = initRegistry [p] [] [] [])
    (hreq : createRandomRequest env.newRequest env.src env.order "GET" targetURL =
      .ret (.ok req))
    (hdo : ∀ c, env.clientDo c req = .ok resp) :
    ∃ f1 : WorkerFrame α ρ, workerIteration targetURL env f = .ret f1 ∧
      f1.st.registry = initRegistry [p] [] [] [] ∧
      f1.received = f.received + 1 ∧
      f1.openBodies = f.received :: f.openBodies ∧
      f1.deferred = .bodyClose f.received :: f.deferred ∧
      f1.done = f.done := by
  have hcall : getNextProxy f.st.registry = .ret (some p, initRegistry [p] [] [] []) := by
    rw [hreg, getNextProxy_http _ p (by simp [initRegistry]) (by simp [initRegistry, sliceAt])]
    simp [initRegistry]
  simp only [workerIteration, workerRound, hcall, hreq, hdo]
  exact ⟨_, rfl, rfl, rfl, rfl, rfl, rfl⟩

/-- The frames of a worker over `n` rounds that all get a response. -/
theorem workerRounds_sent {α ρ : Type} [Inhabited ρ] (targetURL : String)
    (env : RoundEnv α ρ) (p : α) (req : Request) (resp : Response)
    (hreq : createRandomRequest env.newRequest env.src env.order "GET" targetURL =
      .ret (.ok req))
    (hdo : ∀ c, env.clientDo c req = .ok resp) (n : Nat) (f : WorkerFrame α ρ)
    (hreg : f.st.registry = initRegistry [p] [] [] []) :
    ∃ f1 : WorkerFrame α ρ,
      workerRounds targetURL (List.replicate n env) f = .ret f1 ∧
      f1.st.registry = initRegistry [p] [] [] [] ∧
      f1.received = f.received + n ∧
      f1.openBodies.length = f.openBodies.length + n ∧
      f1.deferred.length = f.deferred.length + n ∧
      f1.done = f.done := by
  induction n generalizing f with
  | zero => exact ⟨f, rfl, hreg, rfl, rfl, rfl, rfl⟩
  | succ n ih =>
    obtain ⟨f1, hit, hr1, hrec, hopen, hdef, hdone⟩ :=
      workerIteration_sent targetURL env f p req resp hreg hreq hdo
    obtain ⟨f2, hrun, hr2, hrec2, hopen2, hdef2, hdone2⟩ := ih f1 hr1
    refine ⟨f2, ?_, hr2, ?_, ?_, ?_, hdone2.trans hdone⟩
    · simp only [List.replicate_succ, workerRounds, hit, hrun]
    · rw [hrec2, hrec]; ring
    · rw [hopen2, hopen, List.length_cons]; ring
    · rw [hdef2, hdef, List.length_cons]; ring

/-- C12 fails on the code.  A worker whose every round gets a response (one
proxy in the plain-HTTP list, a target that answers each request) closes no
response body between rounds: `defer resp.Body.Close()` only stacks the call.
At the start of the iteration that follows `n` rounds, all `n` bodies received
are still open, so the number of unreleased bodies grows with the number of
requests; the bodies are closed only when the worker function returns on the
stop signal (shown for three rounds). -/
theorem response_bodies_pile_up (n : Nat) :
    (∃ f : WorkerFrame String Unit,
      workerRounds "http://target:80"
        (List.replicate n
          { newRequest := fun m u => .ok { Method := m, URL := u, Header := Header.empty },
            clientDo := fun _ _ => .ok { Proto := "HTTP/1.1", Status := "200 OK" },
            src := fun _ => 0, order := headers })
        (workerStart (mainAfterProbe (fun s => .ok s) (fun s => s)
          (fun name => if name = "http_proxies.txt" then .opened ["http://10.0.0.1:8080"] none
            else .openError "no such file") true false false 1)) = .ret f ∧
      f.received = n ∧ f.openBodies.length = n ∧ f.deferred.length = n + 1 ∧
      f.done = false) ∧
    (∃ f : WorkerFrame String Unit,
      workerLoop "http://target:80"
        (List.replicate 3
          { newRequest := fun m u => .ok { Method := m, URL := u, Header := Header.empty },
            clientDo := fun _ _ => .ok { Proto := "HTTP/1.1", Status := "200 OK" },
            src := fun _ => 0, order := headers })
        (workerStart (mainAfterProbe (fun s => .ok s) (fun s => s)
          (fun name => if name = "http_proxies.txt" then .opened ["http://10.0.0.1:8080"] none
            else .openError "no such file") true false false 1)) = .ret f ∧
      f.received = 3 ∧ f.openBodies = [] ∧ f.deferred = [] ∧ f.done = true) := by
  constructor
  · obtain ⟨f, hrun, -, hrec, hopen, hdef, hdone⟩ :=
      @workerRounds_sent String Unit inferInstance "http://target:80"
        { newRequest := fun m u => .ok { Method := m, URL := u, Header := Header.empty },
          clientDo := fun _ _ => .ok { Proto := "HTTP/1.1", Status := "200 OK" },
          src := fun _ => 0, order := headers }
        "http://10.0.0.1:8080" _ { Proto := "HTTP/1.1", Status := "200 OK" } rfl
        (fun _ => rfl) n
        (workerStart (mainAfterProbe (fun s => .ok s) (fun s => s)
          (fun name => if name = "http_proxies.txt" then .opened ["http://10.0.0.1:8080"] none
            else .openError "no such file") true false false 1))
        (by decide)
    refine ⟨f, hrun, ?_, ?_, ?_, hdone⟩
    · simpa [workerStart] using hrec
    · simpa [workerStart] using hopen
    · simpa [workerStart, Nat.add_comm] using hdef
  · exact ⟨_, rfl, rfl, rfl, rfl, rfl⟩

end ProxyLoad
